import Mathlib

/-!
# Intercept and packet-routing engine of the tunneler SDK

Shallow embedding of `lib/ziti-tunnel/ziti_tunnel.c`.

Conventions of the embedding:

* a C pointer that the code tests against `NULL` is an `Option`; a pointer that
  the code dereferences without a test is the pointee itself, and a function
  that would dereference `NULL` on some input returns `none` there;
* opaque handles (`void *`, callbacks, lwip control blocks) are natural numbers;
* the intrusive `LIST` / `STAILQ` / `SLIST` queues are Lean lists in queue order,
  a node being identified by its position;
* calls that leave this translation unit (`add_route`, `delete_route`,
  `free_intercept`, the protocol handlers, the backend callbacks) are appended
  to a call log in the order in which the code makes them;
* logging (`TNL_LOG`) has no effect on the state and is left out.
-/

namespace ZitiTunnel

/-! ## Data model -/

/-- A `protocol_t` queue entry. -/
structure protocol_s where
  protocol : String
  deriving DecidableEq, Repr

/-- An `address_t` queue entry: the structured address `za` (kept opaque) and its
printable form `str`. -/
structure address_s where
  za : Nat
  str : String
  deriving DecidableEq, Repr

/-- A `port_range_t` queue entry. -/
structure port_range_s where
  low : Nat
  high : Nat
  str : String
  deriving DecidableEq, Repr

/-- An `intercept_ctx_t`: one interception rule. `app_intercept_ctx` is the opaque
backend handle; the four callback overrides are `none` when `NULL`. -/
structure intercept_ctx_s where
  service_name : String
  app_intercept_ctx : Nat
  protocols : List protocol_s
  addresses : List address_s
  port_ranges : List port_range_s
  allowed_source_addresses : List address_s
  match_addr : Option Nat
  dial_fn : Option Nat
  write_fn : Option Nat
  close_write_fn : Option Nat
  close_fn : Option Nat
  deriving DecidableEq, Repr

/-- The `tunnel_proto_type` tag of an I/O context. The switch statements of the
source have a `default:` branch, so values other than the two enumerators are
representable. -/
inductive tunnel_proto_type where
  | tun_tcp
  | tun_udp
  | other (tag : Nat)
  deriving DecidableEq, Repr

/-- A `struct tunneler_io_ctx_s`: the engine side of one tunneled connection. -/
structure tunneler_io_ctx_s where
  service_name : Option String
  client : String
  intercepted : String
  proto : tunnel_proto_type
  tcp : Option Nat
  udp : Option Nat
  idle_timeout : Nat
  conn_timer : Option Nat
  deriving DecidableEq, Repr

/-- A `struct io_ctx_s`: pairs the engine side of a connection with the
backend-side connection object `ziti_io` and the callbacks chosen for it. -/
structure io_ctx_s where
  tnlr_io : Option tunneler_io_ctx_s
  ziti_io : Nat
  write_fn : Option Nat
  close_write_fn : Option Nat
  close_fn : Option Nat
  deriving DecidableEq, Repr

/-- The part of `struct tunneler_ctx_s` that the registry operations use:
`opts.netif_driver` (`none` in host-only mode), the `intercepts` list and the
`intercepts_cache` model map (key, cached rule handle). -/
structure tunneler_ctx_s where
  netif_driver : Option Nat
  intercepts : List intercept_ctx_s
  intercepts_cache : List (String × Nat)
  deriving DecidableEq, Repr

/-! ## Port ranges -/

/-- The C library `snprintf(buf, size, ...)` for a rendering `s` that contains no
NUL: at most `size - 1` characters are stored. -/
def snprintf (size : Nat) (s : String) : String :=
  String.mk (s.data.take (size - 1))

/-- Source `parse_port_range` (ziti_tunnel.c:283). `str_size` is `sizeof(pr->str)`,
declared in `ziti_tunnel_priv.h`. -/
def parse_port_range (str_size : Nat) (low high : Nat) : port_range_s :=
  let pr_low := if low ≤ high then low else high
  let pr_high := if low ≤ high then high else low
  let pr_str :=
    if low = high then snprintf str_size (toString low)
    else snprintf str_size ("[" ++ toString low ++ "-" ++ toString high ++ "]")
  { low := pr_low, high := pr_high, str := pr_str }

/-- Source `intercept_ctx_add_port_range` (ziti_tunnel.c:301): the parsed range
is appended to the rule's `port_ranges` queue and returned. -/
def intercept_ctx_add_port_range (str_size : Nat) (i_ctx : intercept_ctx_s)
    (low high : Nat) : port_range_s × intercept_ctx_s :=
  let pr := parse_port_range str_size low high
  (pr, { i_ctx with port_ranges := i_ctx.port_ranges ++ [pr] })

/-! ## Calls that leave the translation unit -/

/-- One call made by the registry code to a function defined elsewhere, with the
arguments it was given. -/
inductive Call where
  | add_route (netif_driver : Option Nat) (dest : address_s)
  | delete_route (netif_driver : Option Nat) (dest : address_s)
  | tunneler_tcp_active (zi_ctx : Nat)
  | tunneler_udp_active (zi_ctx : Nat)
  | zclose (fn : Nat) (ziti_io : Nat)
  | free_intercept (intercept : intercept_ctx_s)
  deriving DecidableEq, Repr

/-- The collaborators of `tunneler_kill_active`, over an arbitrary state `σ` of the
protocol handlers and the backend: the two `tunneler_*_active` functions build
the list of live connections of a backend handle, and `zclose fn ziti_io` is the
effect on that state of calling the close callback `fn` on `ziti_io`. -/
structure Handlers (σ : Type) where
  tunneler_tcp_active : σ → Nat → List io_ctx_s
  tunneler_udp_active : σ → Nat → List io_ctx_s
  zclose : Nat → Nat → σ → σ

/-- What lies outside the engine record: the state of the handlers and backend,
and the log of the calls made so far. -/
structure World (σ : Type) where
  hs : σ
  calls : List Call

/-- The route-add requests in a call log, in order. -/
def route_adds : List Call → List (Option Nat × address_s)
  | [] => []
  | Call.add_route d a :: cs => (d, a) :: route_adds cs
  | _ :: cs => route_adds cs

/-- The route-delete requests in a call log, in order. -/
def route_deletes : List Call → List (Option Nat × address_s)
  | [] => []
  | Call.delete_route d a :: cs => (d, a) :: route_deletes cs
  | _ :: cs => route_deletes cs

/-- The close-callback invocations in a call log, in order. -/
def close_calls : List Call → List (Nat × Nat)
  | [] => []
  | Call.zclose f z :: cs => (f, z) :: close_calls cs
  | _ :: cs => close_calls cs

/-- The backend handles of the runs of `tunneler_kill_active` in a call log: each
run starts with its one call of `tunneler_tcp_active`, and nothing else calls it. -/
def kill_active_runs : List Call → List Nat
  | [] => []
  | Call.tunneler_tcp_active h :: cs => h :: kill_active_runs cs
  | _ :: cs => kill_active_runs cs

/-! ## Kill-active termination -/

/-- The loop `while (!SLIST_EMPTY(l)) { n = SLIST_FIRST(l); zclose = n->io->close_fn;
if (zclose) zclose(n->io->ziti_io); SLIST_REMOVE_HEAD(l, entries); free(n); }`
of `tunneler_kill_active`, run on the list `l`. -/
def kill_list {σ : Type} (E : Handlers σ) : List io_ctx_s → World σ → World σ
  | [], w => w
  | n :: l, w =>
    match n.close_fn with
    | some zclose =>
      kill_list E l
        { hs := E.zclose zclose n.ziti_io w.hs,
          calls := w.calls ++ [Call.zclose zclose n.ziti_io] }
    | none => kill_list E l w

/-- Source `tunneler_kill_active` (ziti_tunnel.c:346): the loop over the TCP
handler's list, then the loop over the UDP handler's list. -/
def tunneler_kill_active {σ : Type} (E : Handlers σ) (zi_ctx : Nat) (w : World σ) : World σ :=
  let l := E.tunneler_tcp_active w.hs zi_ctx
  let w1 := kill_list E l { w with calls := w.calls ++ [Call.tunneler_tcp_active zi_ctx] }
  let l2 := E.tunneler_udp_active w1.hs zi_ctx
  kill_list E l2 { w1 with calls := w1.calls ++ [Call.tunneler_udp_active zi_ctx] }

/-! ## Intercept registry -/

/-- The ziti model-map primitive `model_map_clear(map, NULL)`: every entry is removed. -/
def model_map_clear (_map : List (String × Nat)) : List (String × Nat) := []

/-- The loop `STAILQ_FOREACH(address, &i_ctx->addresses, entries) add_route(driver, address);`. -/
def add_routes (netif_driver : Option Nat) : List address_s → List Call → List Call
  | [], calls => calls
  | address :: rest, calls => add_routes netif_driver rest (calls ++ [Call.add_route netif_driver address])

/-- The loop `STAILQ_FOREACH(address, &intercept->addresses, entries) delete_route(driver, address);`. -/
def delete_routes (netif_driver : Option Nat) : List address_s → List Call → List Call
  | [], calls => calls
  | address :: rest, calls =>
    delete_routes netif_driver rest (calls ++ [Call.delete_route netif_driver address])

/-- Source `ziti_tunneler_intercept` (ziti_tunnel.c:315). The result is `none` when
`i_ctx` is `NULL` and the engine is not: the address loop then dereferences `NULL`.
Otherwise it is the return value, the engine and the world after the call. -/
def ziti_tunneler_intercept {σ : Type} (tnlr_ctx : Option tunneler_ctx_s)
    (i_ctx : Option intercept_ctx_s) (w : World σ) :
    Option (Int × Option tunneler_ctx_s × World σ) :=
  match tnlr_ctx with
  | none => some (-1, none, w)
  | some ctx =>
    let cache := model_map_clear ctx.intercepts_cache
    match i_ctx with
    | none => none
    | some i =>
      let calls := add_routes ctx.netif_driver i.addresses w.calls
      some (0, some { ctx with intercepts_cache := cache, intercepts := i :: ctx.intercepts },
            { w with calls := calls })

/-- The scan `LIST_FOREACH(intercept, &tnlr_ctx->intercepts, entries)` of
`ziti_tunnel_find_intercept`: the position of the first node whose
`app_intercept_ctx` is `zi_ctx`. -/
def find_intercept_node : List intercept_ctx_s → Nat → Option Nat
  | [], _ => none
  | intercept :: rest, zi_ctx =>
    if intercept.app_intercept_ctx = zi_ctx then some 0
    else (find_intercept_node rest zi_ctx).map (· + 1)

/-- Source `ziti_tunnel_find_intercept` (ziti_tunnel.c:376): the rule found, or
`none` for `NULL`. -/
def ziti_tunnel_find_intercept (tnlr_ctx : Option tunneler_ctx_s) (zi_ctx : Nat) :
    Option intercept_ctx_s :=
  match tnlr_ctx with
  | none => none
  | some ctx =>
    match find_intercept_node ctx.intercepts zi_ctx with
    | none => none
    | some k => ctx.intercepts.get? k

/-- The registry after `LIST_REMOVE(intercept, entries)`, for the node `intercept`
that the scan for `zi_ctx` returned. -/
def list_remove_found (intercepts : List intercept_ctx_s) (zi_ctx : Nat) :
    List intercept_ctx_s :=
  match find_intercept_node intercepts zi_ctx with
  | none => intercepts
  | some k => intercepts.eraseIdx k

/-- Source `ziti_tunneler_stop_intercepting` (ziti_tunnel.c:395). `tnlr_ctx` is
dereferenced without a test, so the engine is given by value. -/
def ziti_tunneler_stop_intercepting {σ : Type} (E : Handlers σ) (tnlr_ctx : tunneler_ctx_s)
    (zi_ctx : Nat) (w : World σ) : tunneler_ctx_s × World σ :=
  let ctx := { tnlr_ctx with intercepts_cache := model_map_clear tnlr_ctx.intercepts_cache }
  match ziti_tunnel_find_intercept (some ctx) zi_ctx with
  | some intercept =>
    let w1 := tunneler_kill_active E zi_ctx w
    let ctx1 := { ctx with intercepts := list_remove_found ctx.intercepts zi_ctx }
    let calls := delete_routes ctx1.netif_driver intercept.addresses w1.calls
    let w2 := { w1 with calls := calls ++ [Call.free_intercept intercept] }
    (ctx1, tunneler_kill_active E zi_ctx w2)
  | none => (ctx, tunneler_kill_active E zi_ctx w)

/-- Source `ziti_tunneler_shutdown` (ziti_tunnel.c:162), as a loop over the
`intercepts` list: `while (!LIST_EMPTY(l)) { i = LIST_FIRST(l);
tunneler_kill_active(i->app_intercept_ctx); LIST_REMOVE(i, entries); }`.
The result is the list left when the loop exits and the world then. -/
def shutdown_loop {σ : Type} (E : Handlers σ) :
    List intercept_ctx_s → World σ → List intercept_ctx_s × World σ
  | [], w => ([], w)
  | i :: rest, w => shutdown_loop E rest (tunneler_kill_active E i.app_intercept_ctx w)

/-- Source `ziti_tunneler_shutdown` (ziti_tunnel.c:162). -/
def ziti_tunneler_shutdown {σ : Type} (E : Handlers σ) (tnlr_ctx : tunneler_ctx_s)
    (w : World σ) : tunneler_ctx_s × World σ :=
  let r := shutdown_loop E tnlr_ctx.intercepts w
  ({ tnlr_ctx with intercepts := r.1 }, r.2)

/-! ## Backend adapter: write -/

/-- A call of a protocol handler's write path, with the control block it was given. -/
inductive WriteCall where
  | tunneler_tcp_write (pcb : Option Nat) (data : List Nat) (len : Nat)
  | tunneler_udp_write (pcb : Option Nat) (data : List Nat) (len : Nat)
  deriving DecidableEq, Repr

/-- The write paths of the two protocol handlers, by their return value. -/
structure WriteHandlers where
  tunneler_tcp_write : Option Nat → List Nat → Nat → Int
  tunneler_udp_write : Option Nat → List Nat → Nat → Int

/-- Source `ziti_tunneler_write` (ziti_tunnel.c:420): the return value and the
handler calls made. The local `ssize_t r` is declared without an initializer and
the switch has no `default:` branch; `r_uninit` is the value `r` holds when no
case assigns it. -/
def ziti_tunneler_write (H : WriteHandlers) (r_uninit : Int)
    (tnlr_io_ctx : Option tunneler_io_ctx_s) (data : List Nat) (len : Nat) :
    Int × List WriteCall :=
  match tnlr_io_ctx with
  | none => (-1, [])
  | some io =>
    match io.proto with
    | tunnel_proto_type.tun_tcp =>
      (H.tunneler_tcp_write io.tcp data len, [WriteCall.tunneler_tcp_write io.tcp data len])
    | tunnel_proto_type.tun_udp =>
      (H.tunneler_udp_write io.udp data len, [WriteCall.tunneler_udp_write io.udp data len])
    | tunnel_proto_type.other _ => (r_uninit, [])

/-! ## Backend adapter: dial completion -/

/-- A call of a protocol handler's dial-completion function. -/
inductive DialCall where
  | tunneler_tcp_dial_completed (io : io_ctx_s) (ok : Bool)
  | tunneler_udp_dial_completed (io : io_ctx_s) (ok : Bool)
  deriving DecidableEq, Repr

/-- Source `ziti_tunneler_dial_completed` (ziti_tunnel.c:212): the handler calls
made. The test of `io->tnlr_io` against `NULL` only logs, and the switch then
reads `io->tnlr_io->proto`; the result is `none` for that `NULL` dereference. -/
def ziti_tunneler_dial_completed (io : Option io_ctx_s) (ok : Bool) : Option (List DialCall) :=
  match io with
  | none => some []
  | some io =>
    match io.tnlr_io with
    | none => none
    | some tnlr_io =>
      match tnlr_io.proto with
      | tunnel_proto_type.tun_tcp => some [DialCall.tunneler_tcp_dial_completed io ok]
      | tunnel_proto_type.tun_udp => some [DialCall.tunneler_udp_dial_completed io ok]
      | tunnel_proto_type.other _ => some []

/-! ## Backend adapter: close -/

/-- A call made while closing an I/O context: a handler's close on a control block,
`uv_close(conn_timer, free)`, `free(io->service_name)` and `free(io)`; the latter
carries the content of the context at the time it is freed. -/
inductive CloseCall where
  | tunneler_tcp_close (pcb : Option Nat)
  | tunneler_udp_close (pcb : Option Nat)
  | uv_close (conn_timer : Nat)
  | free_service_name (service_name : String)
  | free_io (io : tunneler_io_ctx_s)
  deriving DecidableEq, Repr

/-- Source `free_tunneler_io_context` (ziti_tunnel.c:192). The argument is a pointer
to a pointer; the result is the pointed-to pointer afterwards (`none` when the
argument itself is `NULL`) and the calls to `free`. -/
def free_tunneler_io_context (tnlr_io_ctx_p : Option (Option tunneler_io_ctx_s)) :
    Option (Option tunneler_io_ctx_s) × List CloseCall :=
  match tnlr_io_ctx_p with
  | none => (none, [])
  | some none => (some none, [])
  | some (some io) =>
    let frees_name := match io.service_name with
      | some name => [CloseCall.free_service_name name]
      | none => []
    (some none, frees_name ++ [CloseCall.free_io io])

/-- Source `ziti_tunneler_close` (ziti_tunnel.c:440): the return value and the
calls made, in order. -/
def ziti_tunneler_close (tnlr_io_ctx : Option tunneler_io_ctx_s) : Int × List CloseCall :=
  match tnlr_io_ctx with
  | none => (0, [])
  | some io =>
    let sw : tunneler_io_ctx_s × List CloseCall := match io.proto with
      | tunnel_proto_type.tun_tcp => ({ io with tcp := none }, [CloseCall.tunneler_tcp_close io.tcp])
      | tunnel_proto_type.tun_udp => ({ io with udp := none }, [CloseCall.tunneler_udp_close io.udp])
      | tunnel_proto_type.other _ => (io, [])
    let tm : tunneler_io_ctx_s × List CloseCall := match sw.1.conn_timer with
      | some conn_timer => ({ sw.1 with conn_timer := none }, [CloseCall.uv_close conn_timer])
      | none => (sw.1, [])
    (0, sw.2 ++ tm.2 ++ (free_tunneler_io_context (some (some tm.1))).2)

/-! ## Backend adapter: write acknowledgement -/

/-- A `struct write_ctx_s`, by the one member this file uses: the completion `ack`. -/
structure write_ctx_s where
  ack : Nat
  deriving DecidableEq, Repr

/-- A call made by `ziti_tunneler_ack`: the completion `fn` applied to the address
of the write context, and `free` of that address. -/
inductive AckCall where
  | ack (fn : Nat) (write_ctx : Nat)
  | free (write_ctx : Nat)
  deriving DecidableEq, Repr

/-- Source `ziti_tunneler_ack` (ziti_tunnel.c:173), over a heap of write contexts by
address. The result is `none` when `write_ctx` is not the address of an allocated
write context; otherwise it is the heap afterwards and the calls made. -/
def ziti_tunneler_ack (heap : Nat → Option write_ctx_s) (write_ctx : Nat) :
    Option ((Nat → Option write_ctx_s) × List AckCall) :=
  match heap write_ctx with
  | none => none
  | some w =>
    some (fun p => if p = write_ctx then none else heap p,
          [AckCall.ack w.ack write_ctx, AckCall.free write_ctx])

/-! ## Cross-thread dispatch -/

/-- Source `ziti_tunnel_async_call_t` (ziti_tunnel.c:597). -/
structure ziti_tunnel_async_call_s where
  f : Option Nat
  arg : Nat
  deriving DecidableEq, Repr

/-- A `uv_async_t`, by the members this file uses: `data`, which owns the call
record, and `loop`, which `uv_async_init` sets. -/
structure uv_async_s where
  data : Option ziti_tunnel_async_call_s
  loop : Option Nat
  deriving DecidableEq, Repr

/-- The part of `struct tunneler_ctx_s` that the dispatch primitive uses. -/
structure tunneler_loop_s where
  loop : Nat
  sem : Nat
  deriving DecidableEq, Repr

/-- A call made by the dispatch code. The semaphore is `some` of the engine's `sem`
or `none` for `default_loop_sem`; `call_f fn loop arg` is the dispatched function
`fn` applied to `loop` and `arg`; `uv_close` is given `async_close_cb`. -/
inductive AsyncCall where
  | uv_sem_wait (sem : Option Nat)
  | uv_async_init (loop : Nat) (async : uv_async_s)
  | uv_sem_post (sem : Option Nat)
  | uv_async_send (async : uv_async_s)
  | call_f (fn : Nat) (loop : Option Nat) (arg : Nat)
  | uv_close (async : uv_async_s)
  | free_call (call : ziti_tunnel_async_call_s)
  | free_async (async : uv_async_s)
  deriving DecidableEq, Repr

/-- Source `async_close_cb` (ziti_tunnel.c:602). -/
def async_close_cb (async : uv_async_s) : List AsyncCall :=
  let frees_data := match async.data with
    | some call => [AsyncCall.free_call call]
    | none => []
  frees_data ++ [AsyncCall.free_async async]

/-- Source `ziti_tunnel_async_wrapper` (ziti_tunnel.c:610). -/
def ziti_tunnel_async_wrapper (async : uv_async_s) : List AsyncCall :=
  let calls_f := match async.data with
    | some call =>
      match call.f with
      | some fn => [AsyncCall.call_f fn async.loop call.arg]
      | none => []
    | none => []
  calls_f ++ [AsyncCall.uv_close async]

/-- Source `ziti_tunnel_async_send` (ziti_tunnel.c:619). `uv_default_loop` is the
default loop and `e` the value that `uv_async_init` returns; on success
`uv_async_init` has set the handle's `loop`. The result is the calls made and the
handle that was signalled, if any. -/
def ziti_tunnel_async_send (uv_default_loop : Nat) (tctx : Option tunneler_loop_s)
    (f : Option Nat) (arg : Nat) (e : Int) : List AsyncCall × Option uv_async_s :=
  let loop := match tctx with
    | some t => t.loop
    | none => uv_default_loop
  let call : ziti_tunnel_async_call_s := { f := f, arg := arg }
  let async : uv_async_s := { data := some call, loop := none }
  let sem := tctx.map (fun t => t.sem)
  let guarded := [AsyncCall.uv_sem_wait sem, AsyncCall.uv_async_init loop async,
    AsyncCall.uv_sem_post sem]
  if e ≠ 0 then
    (guarded ++ [AsyncCall.free_call call, AsyncCall.free_async async], none)
  else
    let async1 : uv_async_s := { async with loop := some loop }
    (guarded ++ [AsyncCall.uv_async_send async1], some async1)

/-! ## Route exclusion -/

/-- The address families that `ziti_tunneler_exclude_route` tells apart. -/
inductive sa_family_t where
  | AF_INET
  | AF_INET6
  | AF_OTHER
  deriving DecidableEq, Repr

/-- A socket address, by its family and the 32-bit word read as `sin_addr.s_addr`
through the cast to `struct sockaddr_in`. -/
structure sockaddr_s where
  sa_family : sa_family_t
  s_addr : Nat
  deriving DecidableEq, Repr

/-- A `uv_interface_address_t`. -/
structure uv_interface_address_s where
  name : String
  address : sockaddr_s
  netmask : sockaddr_s
  deriving DecidableEq, Repr

/-- A `struct addrinfo` list entry. -/
structure addrinfo_s where
  ai_family : sa_family_t
  ai_addr : sockaddr_s
  deriving DecidableEq, Repr

/-- A `netif_driver`, by the members this file tests or calls. -/
structure netif_driver_s where
  handle : Nat
  setup : Option Nat
  uv_poll_init : Option Nat
  exclude_rt : Option Nat
  deriving DecidableEq, Repr

/-- A call of the driver's `exclude_rt` with the printed route. -/
inductive ExcludeCall where
  | exclude_rt (fn : Nat) (handle : Nat) (route : String)
  deriving DecidableEq, Repr

/-- The loop `for (int i = 0; i < num_if_addrs; i++)` of
`ziti_tunneler_exclude_route` for one resolved address: `true` when it reaches
`goto done`, `false` when it runs to the end. -/
def if_addrs_scan (addrinfo : addrinfo_s) : List uv_interface_address_s → Bool
  | [] => false
  | if_addr :: rest =>
    if if_addr.address.sa_family = sa_family_t.AF_INET ∧ addrinfo.ai_family = sa_family_t.AF_INET then
      if if_addr.address.s_addr &&& if_addr.netmask.s_addr
          = addrinfo.ai_addr.s_addr &&& if_addr.netmask.s_addr then
        true
      else if_addrs_scan addrinfo rest
    else if_addrs_scan addrinfo rest

/-- The loop `while (addrinfo != NULL)` of `ziti_tunneler_exclude_route`: `goto done`
leaves it, otherwise `exclude_rt` is called and the next entry is taken. -/
def exclude_loop (uv_ip4_name : sockaddr_s → String) (fn handle : Nat)
    (if_addrs : List uv_interface_address_s) : List addrinfo_s → List ExcludeCall
  | [] => []
  | addrinfo :: ai_next =>
    if if_addrs_scan addrinfo if_addrs then []
    else ExcludeCall.exclude_rt fn handle (uv_ip4_name addrinfo.ai_addr)
      :: exclude_loop uv_ip4_name fn handle if_addrs ai_next

/-- Source `ziti_tunneler_exclude_route` (ziti_tunnel.c:108). `netif_driver` is
`tnlr_ctx->opts.netif_driver`, `if_addrs` the result of `uv_interface_addresses`
(`none` when it fails) and `addrinfo` the list that `uv_getaddrinfo` resolved `dst`
to. -/
def ziti_tunneler_exclude_route (uv_ip4_name : sockaddr_s → String)
    (netif_driver : Option netif_driver_s) (if_addrs : Option (List uv_interface_address_s))
    (addrinfo : List addrinfo_s) : List ExcludeCall :=
  match netif_driver with
  | none => []
  | some driver =>
    match driver.exclude_rt with
    | none => []
    | some fn =>
      match if_addrs with
      | none => []
      | some if_addrs => exclude_loop uv_ip4_name fn driver.handle if_addrs addrinfo

/-! ## Engine initialization -/

/-- The `tunneler_sdk_options`: the interface driver and the five backend callbacks,
each `none` when `NULL`. -/
structure tunneler_sdk_options where
  netif_driver : Option netif_driver_s
  ziti_dial : Option Nat
  ziti_close : Option Nat
  ziti_close_write : Option Nat
  ziti_write : Option Nat
  ziti_host : Option Nat
  deriving DecidableEq, Repr

/-- A call made during initialization, in the embedded stack, the interface driver
or the event loop. -/
inductive InitCall where
  | uv_sem_init
  | uv_once
  | lwip_init
  | netif_add_noaddr (netif_driver : Option netif_driver_s)
  | netif_set_default
  | netif_set_link_up
  | netif_set_up
  | setup (fn : Nat) (handle : Nat) (loop : Nat)
  | uv_poll_init (fn : Nat) (handle : Nat) (loop : Nat)
  | uv_poll_start
  | raw_new_ip_type (proto : Nat)
  | raw_bind (pcb : Nat)
  | raw_remove (pcb : Nat)
  | raw_bind_netif (pcb : Nat)
  | raw_recv (pcb : Nat)
  | uv_timer_init (loop : Nat)
  | uv_unref
  deriving DecidableEq, Repr

/-- How a run of initialization code ends: it returns, it calls `exit(status)`, or
it dereferences `NULL`. -/
inductive Outcome where
  | returned
  | exited (status : Nat)
  | fault
  deriving DecidableEq, Repr

/-- The results of the calls whose outcome initialization tests: whether
`netif_add_noaddr` returns non-`NULL`, the value of `uv_poll_start`, the control
block from `raw_new_ip_type` per protocol, and the value of `raw_bind` per block. -/
structure InitEnv where
  calloc_ok : Bool
  netif_add_ok : Bool
  uv_poll_start : Int
  raw_new_ip_type : Nat → Option Nat
  raw_bind : Nat → Int

/-- The lwip protocol number `IP_PROTO_TCP`. -/
def IP_PROTO_TCP : Nat := 6

/-- The lwip protocol number `IP_PROTO_UDP`. -/
def IP_PROTO_UDP : Nat := 17

/-- Source `init_protocol_handler` (ziti_tunnel.c:530): the calls made and the
control block returned, `none` for `NULL`. -/
def init_protocol_handler (env : InitEnv) (proto : Nat) : List InitCall × Option Nat :=
  match env.raw_new_ip_type proto with
  | none => ([InitCall.raw_new_ip_type proto], none)
  | some pcb =>
    if env.raw_bind pcb ≠ 0 then
      ([InitCall.raw_new_ip_type proto, InitCall.raw_bind pcb, InitCall.raw_remove pcb], none)
    else
      ([InitCall.raw_new_ip_type proto, InitCall.raw_bind pcb, InitCall.raw_bind_netif pcb,
        InitCall.raw_recv pcb], some pcb)

/-- Source `run_packet_loop` (ziti_tunnel.c:551): the calls made, in order, and how
the run ends. -/
def run_packet_loop (env : InitEnv) (loop : Nat) (opts : tunneler_sdk_options) :
    List InitCall × Outcome :=
  if opts.ziti_close = none ∨ opts.ziti_close_write = none ∨ opts.ziti_write = none ∨
      opts.ziti_dial = none ∨ opts.ziti_host = none then
    ([], Outcome.exited 1)
  else
    let c1 := [InitCall.lwip_init, InitCall.netif_add_noaddr opts.netif_driver]
    if env.netif_add_ok = false then (c1, Outcome.exited 1)
    else
      let c2 := c1 ++ [InitCall.netif_set_default, InitCall.netif_set_link_up, InitCall.netif_set_up]
      match opts.netif_driver with
      | none => (c2, Outcome.fault)
      | some netif_driver =>
        let reader : List InitCall × Bool :=
          match netif_driver.setup with
          | some fn => ([InitCall.setup fn netif_driver.handle loop], true)
          | none =>
            match netif_driver.uv_poll_init with
            | some fn =>
              ([InitCall.uv_poll_init fn netif_driver.handle loop, InitCall.uv_poll_start],
                decide (env.uv_poll_start = 0))
            | none => ([], true)
        let c3 := c2 ++ reader.1
        if reader.2 = false then (c3, Outcome.exited 1)
        else
          let tcp := init_protocol_handler env IP_PROTO_TCP
          let c4 := c3 ++ tcp.1
          if tcp.2 = none then (c4, Outcome.exited 1)
          else
            let udp := init_protocol_handler env IP_PROTO_UDP
            let c5 := c4 ++ udp.1
            if udp.2 = none then (c5, Outcome.exited 1)
            else (c5 ++ [InitCall.uv_timer_init loop, InitCall.uv_unref], Outcome.returned)

/-- Source `create_tunneler_ctx` (ziti_tunnel.c:59): the calls made and the options
copied into the new engine, `none` when it returns `NULL`. -/
def create_tunneler_ctx (env : InitEnv) (opts : Option tunneler_sdk_options) :
    List InitCall × Option tunneler_sdk_options :=
  match opts with
  | none => ([], none)
  | some o =>
    if env.calloc_ok = false then ([], none)
    else ([InitCall.uv_sem_init, InitCall.uv_once], some o)

/-- Source `ziti_tunneler_init` (ziti_tunnel.c:83): the calls made, how the run
ends, and the options of the engine returned (`none` when the result is `NULL` or
the function does not return). -/
def ziti_tunneler_init (env : InitEnv) (opts : Option tunneler_sdk_options) (loop : Nat) :
    List InitCall × Outcome × Option tunneler_sdk_options :=
  let created := create_tunneler_ctx env opts
  match created.2 with
  | none => (created.1, Outcome.returned, none)
  | some ctx_opts =>
    let run := run_packet_loop env loop ctx_opts
    match run.2 with
    | Outcome.returned => (created.1 ++ run.1, Outcome.returned, some ctx_opts)
    | out => (created.1 ++ run.1, out, none)

/-! ## Stack timer -/

/-- A `uv_timer_t`, by what `uv_is_active`, `uv_timer_stop` and `uv_timer_start`
read and set. -/
structure uv_timer_s where
  active : Bool
  timeout : Nat
  repeat_ : Nat
  deriving DecidableEq, Repr

/-- The embedded stack as `check_lwip_timeouts` uses it, over an arbitrary stack
state `σ`: the two timeout procedures, the two TCP control-block lists and the
reported time to the next timeout. -/
structure Lwip (σ : Type) where
  sys_restart_timeouts : σ → σ
  sys_check_timeouts : σ → σ
  tcp_active_pcbs : σ → List Nat
  tcp_tw_pcbs : σ → List Nat
  sys_timeouts_sleeptime : σ → Nat

/-- A call made by `check_lwip_timeouts`. -/
inductive TimerCall where
  | sys_restart_timeouts
  | sys_check_timeouts
  | uv_timer_stop
  | uv_timer_start (timeout : Nat) (repeat_ : Nat)
  deriving DecidableEq, Repr

/-- Source `check_lwip_timeouts` (ziti_tunnel.c:500): the stack state and the timer
afterwards, and the calls made, in order. -/
def check_lwip_timeouts {σ : Type} (L : Lwip σ) (timer : uv_timer_s) (s : σ) :
    σ × uv_timer_s × List TimerCall :=
  let r : σ × List TimerCall :=
    if timer.active = false then (L.sys_restart_timeouts s, [TimerCall.sys_restart_timeouts])
    else (s, [])
  let s2 := L.sys_check_timeouts r.1
  let c2 := r.2 ++ [TimerCall.sys_check_timeouts]
  if L.tcp_active_pcbs s2 = [] ∧ L.tcp_tw_pcbs s2 = [] then
    (s2, { timer with active := false }, c2 ++ [TimerCall.uv_timer_stop])
  else
    let sleep := L.sys_timeouts_sleeptime s2
    (s2, { active := true, timeout := sleep, repeat_ := sleep },
      c2 ++ [TimerCall.uv_timer_start sleep sleep])

/-! ## Rule builders and accessors -/

/-- Source `intercept_ctx_add_address` (ziti_tunnel.c:263): the rule afterwards,
`none` when `i_ctx` is `NULL`. `za` is the structured address, `none` for `NULL`,
and `ziti_address_print` its printed form. -/
def intercept_ctx_add_address (ziti_address_print : Nat → String)
    (i_ctx : Option intercept_ctx_s) (za : Option Nat) : Option intercept_ctx_s :=
  match i_ctx, za with
  | some i, some z =>
    some { i with addresses := i.addresses ++ [{ za := z, str := ziti_address_print z }] }
  | some i, none => some i
  | none, _ => none

/-- Source `intercept_ctx_add_allowed_source_address` (ziti_tunnel.c:273). -/
def intercept_ctx_add_allowed_source_address (ziti_address_print : Nat → String)
    (i_ctx : Option intercept_ctx_s) (za : Option Nat) : Option intercept_ctx_s :=
  match i_ctx, za with
  | some i, some z =>
    some { i with
      allowed_source_addresses :=
        i.allowed_source_addresses ++ [{ za := z, str := ziti_address_print z }] }
  | some i, none => some i
  | none, _ => none

/-- Source `ziti_tunneler_set_idle_timeout` (ziti_tunnel.c:205): the I/O context
afterwards; `none` when `io_context->tnlr_io` is `NULL`, which the assignment
dereferences. -/
def ziti_tunneler_set_idle_timeout (io_context : io_ctx_s) (timeout : Nat) : Option io_ctx_s :=
  match io_context.tnlr_io with
  | none => none
  | some tnlr_io => some { io_context with tnlr_io := some { tnlr_io with idle_timeout := timeout } }

/-! ## Identity bookkeeping (`programs/ziti-edge-tunnel/instance.c`) -/

/-- Conversion of an integer to the 32-bit `int`: values outside the range wrap. -/
def to_int (x : Int) : Int := (x + 2147483648) % 4294967296 - 2147483648

/-- A `tunnel_service`, by the members the functions below read. -/
structure tunnel_service_s where
  Name : String
  Timeout : Int
  TimeoutRemaining : Int
  deriving DecidableEq, Repr

/-- A `timestamp` (`tv_sec`, `tv_usec`). -/
structure timestamp_s where
  tv_sec : Int
  tv_usec : Int
  deriving DecidableEq, Repr

/-- A `tunnel_identity`, by the members the functions below read or write.
`Services` is `none` for `NULL` and otherwise the array as stored, whose entries
are `none` where the array holds a null pointer. -/
structure tunnel_identity_s where
  Services : Option (List (Option tunnel_service_s))
  MfaMinTimeout : Int
  MfaMaxTimeout : Int
  MfaMinTimeoutRem : Int
  MfaMaxTimeoutRem : Int
  MinTimeoutRemInSvcEvent : Int
  MaxTimeoutRemInSvcEvent : Int
  MfaLastUpdatedTime : Option timestamp_s
  ServiceUpdatedTime : Option timestamp_s
  deriving DecidableEq, Repr

/-- The entries that a loop `for (idx = 0; array[idx]; idx++)` visits: those before
the first null entry. -/
def array_entries {α : Type} : List (Option α) → List α
  | [] => []
  | none :: _ => []
  | some a :: rest => a :: array_entries rest

/-- The locals of `set_mfa_timeout`. -/
structure mfa_locals where
  mfa_min_timeout : Int
  mfa_min_timeout_rem : Int
  mfa_max_timeout : Int
  mfa_max_timeout_rem : Int
  no_timeout_svc : Bool
  no_timeout_svc_rem : Bool
  deriving DecidableEq, Repr

/-- The body of the `for` loop of `set_mfa_timeout` for one service. -/
def set_mfa_timeout_body (v : mfa_locals) (tnl_svc : tunnel_service_s) : mfa_locals :=
  let v1 : mfa_locals :=
    if tnl_svc.Timeout > -1 then
      let a := if v.mfa_min_timeout = -1 ∨ v.mfa_min_timeout > tnl_svc.Timeout
        then { v with mfa_min_timeout := to_int tnl_svc.Timeout } else v
      if a.mfa_max_timeout = -1 ∨ a.mfa_max_timeout < tnl_svc.Timeout
        then { a with mfa_max_timeout := to_int tnl_svc.Timeout } else a
    else { v with no_timeout_svc := true }
  if tnl_svc.TimeoutRemaining > -1 then
    let b := if v1.mfa_min_timeout_rem = -1 ∨ v1.mfa_min_timeout_rem > tnl_svc.TimeoutRemaining
      then { v1 with mfa_min_timeout_rem := to_int tnl_svc.TimeoutRemaining } else v1
    if b.mfa_max_timeout_rem = -1 ∨ b.mfa_max_timeout_rem < tnl_svc.TimeoutRemaining
      then { b with mfa_max_timeout_rem := to_int tnl_svc.TimeoutRemaining } else b
  else { v1 with no_timeout_svc_rem := true }

/-- Source `set_mfa_timeout` (instance.c:94). -/
def set_mfa_timeout (tnl_id : tunnel_identity_s) : tunnel_identity_s :=
  match tnl_id.Services with
  | none => tnl_id
  | some services =>
    let v0 : mfa_locals :=
      { mfa_min_timeout := -1, mfa_min_timeout_rem := -1, mfa_max_timeout := -1,
        mfa_max_timeout_rem := -1, no_timeout_svc := false, no_timeout_svc_rem := false }
    let v := (array_entries services).foldl set_mfa_timeout_body v0
    let mfa_max_timeout := if v.no_timeout_svc then -1 else v.mfa_max_timeout
    let mfa_max_timeout_rem := if v.no_timeout_svc_rem then -1 else v.mfa_max_timeout_rem
    { tnl_id with
      MfaMaxTimeout := mfa_max_timeout
      MfaMaxTimeoutRem := mfa_max_timeout_rem
      MaxTimeoutRemInSvcEvent := mfa_max_timeout_rem
      MfaMinTimeout := v.mfa_min_timeout
      MfaMinTimeoutRem := v.mfa_min_timeout_rem
      MinTimeoutRemInSvcEvent := v.mfa_min_timeout_rem }

/-- The ziti model-map primitive `model_map_get`: the value stored under `key`. -/
def model_map_get {α : Type} : List (String × α) → String → Option α
  | [], _ => none
  | (k, v) :: rest, key => if k = key then some v else model_map_get rest key

/-- The ziti model-map primitive `model_map_set`: the value under `key` is replaced,
or a new entry is added after the existing ones. -/
def model_map_set {α : Type} : List (String × α) → String → α → List (String × α)
  | [], key, val => [(key, val)]
  | (k, v) :: rest, key, val =>
    if k = key then (key, val) :: rest else (k, v) :: model_map_set rest key val

/-- The ziti model-map primitive `model_map_remove`: the entry under `key` is taken out. -/
def model_map_remove {α : Type} (map : List (String × α)) (key : String) : List (String × α) :=
  map.filter (fun e => decide (e.1 ≠ key))

/-- The ziti model-map primitive `model_map_size`. -/
def model_map_size {α : Type} (map : List (String × α)) : Nat := map.length

/-- The loop `while (it != NULL) { id->Services[idx++] = model_map_it_value(it);
it = model_map_it_remove(it); }` of `add_or_remove_services_from_tunnel`, from the
iterator position `it` and index `idx`. -/
def drain_into {α : Type} : List (String × α) → Nat → List (Option α) → List (Option α)
  | [], _, array => array
  | (_, v) :: it, idx, array => drain_into it (idx + 1) (array.set idx (some v))

/-- Source `add_or_remove_services_from_tunnel` (instance.c:144). `now` is the time
that `uv_gettimeofday` reports; the arrays are `none` for `NULL`. -/
def add_or_remove_services_from_tunnel (now : timestamp_s) (id : tunnel_identity_s)
    (added_services removed_services : Option (List (Option tunnel_service_s))) :
    tunnel_identity_s :=
  let updates0 : List (String × tunnel_service_s) := []
  let updates1 := match id.Services with
    | some services =>
      (array_entries services).foldl (fun m svc => model_map_set m svc.Name svc) updates0
    | none => updates0
  let updates2 := match removed_services with
    | some removed =>
      (array_entries removed).foldl (fun m svc =>
        match model_map_get m svc.Name with
        | some rem_svc => model_map_remove m rem_svc.Name
        | none => m) updates1
    | none => updates1
  let updates3 := match added_services with
    | some added =>
      (array_entries added).foldl (fun m svc => model_map_set m svc.Name svc) updates2
    | none => updates2
  let calloc_array : List (Option tunnel_service_s) :=
    List.replicate (model_map_size updates3 + 1) none
  let id1 := { id with Services := some (drain_into updates3 0 calloc_array) }
  let id2 := set_mfa_timeout id1
  { id2 with ServiceUpdatedTime := some { tv_sec := now.tv_sec, tv_usec := now.tv_usec } }

/-- Source `get_remaining_timeout` (instance.c:474). `now_tv_sec` is the `tv_sec`
that `uv_gettimeofday` reports. The locals are `int`: the 64-bit difference of
seconds is converted to `int`, and `int` subtraction is taken to wrap. -/
def get_remaining_timeout (now_tv_sec : Int) (timeout timeout_rem : Int)
    (tnl_id : tunnel_identity_s) : Int :=
  if timeout ≤ 0 ∨ timeout_rem ≤ 0 then timeout_rem
  else
    match tnl_id.MfaLastUpdatedTime, tnl_id.ServiceUpdatedTime with
    | some mfa, some svc =>
      if mfa.tv_sec > svc.tv_sec then
        let elapsed_time := to_int (now_tv_sec - mfa.tv_sec)
        if to_int (timeout - elapsed_time) < 0 then 0 else to_int (timeout - elapsed_time)
      else
        let elapsed_time := to_int (now_tv_sec - svc.tv_sec)
        if to_int (timeout_rem - elapsed_time) < 0 then 0 else to_int (timeout_rem - elapsed_time)
    | _, _ => timeout_rem

/-- The loop `while (*(next + 1) == target) next++;` of
`remove_duplicate_path_separators`, on the characters after `next`: what is left
of them once it stops. -/
def skip_target (target : Char) : List Char → List Char
  | [] => []
  | c :: rest => if c = target then skip_target target rest else c :: rest

/-- The loop `while (*next)` of `remove_duplicate_path_separators`, on the
characters from `next` to the terminator: the characters written. The write
position never passes the read position, so what is read is what the string held
on entry. -/
def remove_duplicates_loop (target : Char) (l : List Char) : List Char :=
  match l with
  | [] => []
  | c :: rest =>
    if c = target then c :: remove_duplicates_loop target (skip_target target rest)
    else c :: remove_duplicates_loop target rest
termination_by l.length
decreasing_by
  · have hle : ∀ r : List Char, (skip_target target r).length ≤ r.length := by
      intro r
      induction r with
      | nil => simp [skip_target]
      | cons d r ih =>
        by_cases h : d = target
        · simp [skip_target, h]; omega
        · simp [skip_target, h]
    have := hle rest
    simp only [List.length_cons]
    omega
  · simp

/-- Source `remove_duplicate_path_separators` (instance.c:541): the string
afterwards, by its characters before the terminator; `none` is `NULL`. -/
def remove_duplicate_path_separators (str : Option (List Char)) (target : Char) :
    Option (List Char) :=
  match str with
  | none => none
  | some [] => some []
  | some l => some (remove_duplicates_loop target l)

/-- The expression `(0xFFFFFFFFUL << (32 - bits)) & 0xFFFFFFFFUL` of `set_ip_info`
(instance.c:775), for an `unsigned long` of `ulong_bits` bits; `none` when the
shift count is negative or not less than that width. -/
def set_ip_info_netmask (ulong_bits : Nat) (bits : Int) : Option Nat :=
  if 32 - bits < 0 ∨ (ulong_bits : Int) ≤ 32 - bits then none
  else some (((0xFFFFFFFF <<< (32 - bits).toNat) % 2 ^ ulong_bits) &&& 0xFFFFFFFF)

/-! ## Statement vocabulary -/

/-- The close-callback calls that the kill loop makes for a list of live
connections: one per entry that has a close callback, on the entry's `ziti_io`. -/
def closes_of (l : List io_ctx_s) : List Call :=
  l.filterMap (fun n => n.close_fn.map (fun f => Call.zclose f n.ziti_io))

/-- The state of the handlers and backend after those close callbacks ran, in list order. -/
def close_state {σ : Type} (E : Handlers σ) (l : List io_ctx_s) (s : σ) : σ :=
  l.foldl (fun s n => match n.close_fn with
    | some f => E.zclose f n.ziti_io s
    | none => s) s

/-- The string in which each maximal run of consecutive `target` characters is
replaced by a single `target`: a `target` followed by another `target` is dropped
and every other character is kept, in order. -/
def collapse_runs (target : Char) : List Char → List Char
  | [] => []
  | [c] => [c]
  | c :: d :: rest =>
    if c = target ∧ d = target then collapse_runs target (d :: rest)
    else c :: collapse_runs target (d :: rest)

/-- No two adjacent characters are both `target`. -/
def no_adjacent (target : Char) (l : List Char) : Prop :=
  List.Chain' (fun a b => ¬ (a = target ∧ b = target)) l

/-- The value `x` is representable as a 32-bit `int`. -/
def fits_int (x : Int) : Prop := -2147483648 ≤ x ∧ x ≤ 2147483647

/-- A model map built with service names as keys: no key occurs twice and each
value is stored under its own name. -/
def map_ok (m : List (String × tunnel_service_s)) : Prop :=
  (m.map (fun e => e.1)).Nodup ∧ ∀ e ∈ m, e.2.Name = e.1

/-- The services that an array holds before its first null entry; none for `NULL`. -/
def entries_of (array : Option (List (Option tunnel_service_s))) : List tunnel_service_s :=
  match array with
  | some a => array_entries a
  | none => []

/-- The model map `updates` of `add_or_remove_services_from_tunnel` when it is
drained: the previous services set, the removed ones taken out, the added ones set. -/
def updates_map (prev removed added : List tunnel_service_s) : List (String × tunnel_service_s) :=
  added.foldl (fun m svc => model_map_set m svc.Name svc)
    (removed.foldl (fun m svc =>
        match model_map_get m svc.Name with
        | some rem_svc => model_map_remove m rem_svc.Name
        | none => m)
      (prev.foldl (fun m svc => model_map_set m svc.Name svc) []))

/-! ## Sample data -/

/-- A rule for service "A": tcp, `10.0.0.1/32`, port 80, backend handle 1. -/
def rule_a : intercept_ctx_s :=
  { service_name := "A", app_intercept_ctx := 1,
    protocols := [{ protocol := "tcp" }],
    addresses := [{ za := 1, str := "10.0.0.1/32" }],
    port_ranges := [parse_port_range 16 80 80],
    allowed_source_addresses := [],
    match_addr := none, dial_fn := none, write_fn := none,
    close_write_fn := none, close_fn := none }

/-- A rule for service "B" with two addresses, carrying the same backend handle 1. -/
def rule_b : intercept_ctx_s :=
  { service_name := "B", app_intercept_ctx := 1,
    protocols := [{ protocol := "tcp" }, { protocol := "udp" }],
    addresses := [{ za := 2, str := "10.0.0.2/32" }, { za := 3, str := "10.0.1.0/24" }],
    port_ranges := [parse_port_range 16 443 80],
    allowed_source_addresses := [],
    match_addr := none, dial_fn := none, write_fn := none,
    close_write_fn := none, close_fn := none }

/-- A rule for service "C" with backend handle 2. -/
def rule_c : intercept_ctx_s :=
  { service_name := "C", app_intercept_ctx := 2,
    protocols := [{ protocol := "udp" }],
    addresses := [{ za := 4, str := "10.0.0.3/32" }],
    port_ranges := [parse_port_range 16 53 53],
    allowed_source_addresses := [],
    match_addr := none, dial_fn := none, write_fn := none,
    close_write_fn := none, close_fn := none }

/-- An engine with a driver, no rule and one cached lookup. -/
def engine_empty : tunneler_ctx_s :=
  { netif_driver := some 7, intercepts := [], intercepts_cache := [("tcp:10.0.0.1:80", 1)] }

/-- An engine with the rules C, A in registry order and one cached lookup. -/
def engine_two : tunneler_ctx_s :=
  { netif_driver := some 7, intercepts := [rule_c, rule_a],
    intercepts_cache := [("tcp:10.0.0.1:80", 1)] }

/-- A live connection with backend object `z` and close callback `f`. -/
def conn (z : Nat) (f : Option Nat) : io_ctx_s :=
  { tnlr_io := none, ziti_io := z, write_fn := none, close_write_fn := none, close_fn := f }

/-- Handlers whose state is the list of backend objects closed so far: a handle `h`
has the TCP connection `10 * h + 1` and the UDP connection `10 * h + 2`, each
reported until it has been closed. -/
def sample_handlers : Handlers (List Nat) :=
  { tunneler_tcp_active := fun s h => if 10 * h + 1 ∈ s then [] else [conn (10 * h + 1) (some 3)],
    tunneler_udp_active := fun s h => if 10 * h + 2 ∈ s then [] else [conn (10 * h + 2) (some 3)],
    zclose := fun _ z s => z :: s }

/-- Handlers that report no live connection. -/
def idle_handlers : Handlers Unit :=
  { tunneler_tcp_active := fun _ _ => [],
    tunneler_udp_active := fun _ _ => [],
    zclose := fun _ _ s => s }

/-- A world in which nothing was closed and no call was made. -/
def world_start : World (List Nat) := { hs := [], calls := [] }

/-- The idle world with an empty call log. -/
def world_idle : World Unit := { hs := (), calls := [] }

/-- An I/O context whose protocol tag is neither `tun_tcp` nor `tun_udp`. -/
def io_unknown : tunneler_io_ctx_s :=
  { service_name := some "A", client := "tcp:192.168.1.5:50000", intercepted := "tcp:10.0.0.1:80",
    proto := tunnel_proto_type.other 2, tcp := some 40, udp := none,
    idle_timeout := 0, conn_timer := none }

/-- Write paths that accept every byte offered. -/
def accepting_writes : WriteHandlers :=
  { tunneler_tcp_write := fun _ _ len => len,
    tunneler_udp_write := fun _ _ len => len }

/-- A TCP I/O context with a connection timer. -/
def io_tcp : tunneler_io_ctx_s :=
  { service_name := some "A", client := "tcp:192.168.1.5:50000", intercepted := "tcp:10.0.0.1:80",
    proto := tunnel_proto_type.tun_tcp, tcp := some 40, udp := none,
    idle_timeout := 0, conn_timer := some 9 }

/-- A UDP I/O context without a connection timer. -/
def io_udp : tunneler_io_ctx_s :=
  { service_name := some "C", client := "udp:192.168.1.5:50001", intercepted := "udp:10.0.0.3:53",
    proto := tunnel_proto_type.tun_udp, tcp := none, udp := some 41,
    idle_timeout := 30, conn_timer := none }

/-- The `io_ctx_s` around an engine-side context, with backend object 5. -/
def io_around (tnlr_io : tunneler_io_ctx_s) : io_ctx_s :=
  { tnlr_io := some tnlr_io, ziti_io := 5, write_fn := some 1, close_write_fn := some 2,
    close_fn := some 3 }

/-- A heap with one write context at address 100, whose completion is 8. -/
def heap_one : Nat → Option write_ctx_s :=
  fun p => if p = 100 then some { ack := 8 } else none

/-- An engine on loop 1 with semaphore 2. -/
def tctx_sample : tunneler_loop_s := { loop := 1, sem := 2 }

/-- Dotted-quad printing of a 32-bit address, most significant octet first. -/
def dotted (a : sockaddr_s) : String :=
  toString (a.s_addr / 16777216 % 256) ++ "." ++ toString (a.s_addr / 65536 % 256) ++ "."
    ++ toString (a.s_addr / 256 % 256) ++ "." ++ toString (a.s_addr % 256)

/-- An IPv4 socket address. -/
def inet (s_addr : Nat) : sockaddr_s := { sa_family := sa_family_t.AF_INET, s_addr := s_addr }

/-- One local interface: `192.168.1.5` with netmask `255.255.255.0`. -/
def if_addrs_sample : List uv_interface_address_s :=
  [{ name := "eth0", address := inet 0xC0A80105, netmask := inet 0xFFFFFF00 }]

/-- A name resolving to `192.168.1.10`, which is on the local subnet, and then to
`8.8.8.8`, which is not. -/
def addrinfo_sample : List addrinfo_s :=
  [{ ai_family := sa_family_t.AF_INET, ai_addr := inet 0xC0A8010A },
   { ai_family := sa_family_t.AF_INET, ai_addr := inet 0x08080808 }]

/-- A driver with a poll handle and route exclusion. -/
def driver_sample : netif_driver_s :=
  { handle := 7, setup := none, uv_poll_init := some 21, exclude_rt := some 22 }

/-- Options with all five callbacks set. -/
def opts_full : tunneler_sdk_options :=
  { netif_driver := some driver_sample, ziti_dial := some 11, ziti_close := some 12,
    ziti_close_write := some 13, ziti_write := some 14, ziti_host := some 15 }

/-- Options whose host callback is `NULL`. -/
def opts_no_host : tunneler_sdk_options := { opts_full with ziti_host := none }

/-- An environment in which every initialization call succeeds. -/
def env_ok : InitEnv :=
  { calloc_ok := true, netif_add_ok := true, uv_poll_start := 0,
    raw_new_ip_type := fun proto => some (100 + proto), raw_bind := fun _ => 0 }

/-- A stack whose state is the pair of TCP lists (active, time-wait): running the
due timeouts drops the time-wait list, and the next wake-up is in 250 ms. -/
def lwip_sample : Lwip (List Nat × List Nat) :=
  { sys_restart_timeouts := fun s => s,
    sys_check_timeouts := fun s => (s.1, []),
    tcp_active_pcbs := fun s => s.1,
    tcp_tw_pcbs := fun s => s.2,
    sys_timeouts_sleeptime := fun _ => 250 }

/-- An I/O context with an unknown protocol tag and a connection timer. -/
def io_unknown_timer : tunneler_io_ctx_s := { io_unknown with conn_timer := some 9 }

/-- Printing of a structured address by its number. -/
def print_za (za : Nat) : String := "za" ++ toString za

/-- The service "a" with timeout 10 and 5 seconds remaining. -/
def svc_a : tunnel_service_s := { Name := "a", Timeout := 10, TimeoutRemaining := 5 }

/-- The service "b" without a timeout. -/
def svc_b : tunnel_service_s := { Name := "b", Timeout := -1, TimeoutRemaining := -1 }

/-- The service "b" as added later, with timeout 30 and 20 seconds remaining. -/
def svc_b2 : tunnel_service_s := { Name := "b", Timeout := 30, TimeoutRemaining := 20 }

/-- The service "c" with timeout 40 and 7 seconds remaining. -/
def svc_c : tunnel_service_s := { Name := "c", Timeout := 40, TimeoutRemaining := 7 }

/-- An identity holding the services a and b, with MFA updated at second 100 and
the services at second 50. -/
def id_sample : tunnel_identity_s :=
  { Services := some [some svc_a, some svc_b, none],
    MfaMinTimeout := 0, MfaMaxTimeout := 0, MfaMinTimeoutRem := 0, MfaMaxTimeoutRem := 0,
    MinTimeoutRemInSvcEvent := 0, MaxTimeoutRemInSvcEvent := 0,
    MfaLastUpdatedTime := some { tv_sec := 100, tv_usec := 0 },
    ServiceUpdatedTime := some { tv_sec := 50, tv_usec := 0 } }

theorem route_adds_append (a b : List Call) :
    route_adds (a ++ b) = route_adds a ++ route_adds b := by
  induction a with
  | nil => rfl
  | cons c cs ih => cases c <;> simp [route_adds, ih]

theorem route_deletes_append (a b : List Call) :
    route_deletes (a ++ b) = route_deletes a ++ route_deletes b := by
  induction a with
  | nil => rfl
  | cons c cs ih => cases c <;> simp [route_deletes, ih]

theorem close_calls_append (a b : List Call) :
    close_calls (a ++ b) = close_calls a ++ close_calls b := by
  induction a with
  | nil => rfl
  | cons c cs ih => cases c <;> simp [close_calls, ih]

theorem kill_active_runs_append (a b : List Call) :
    kill_active_runs (a ++ b) = kill_active_runs a ++ kill_active_runs b := by
  induction a with
  | nil => rfl
  | cons c cs ih => cases c <;> simp [kill_active_runs, ih]

theorem route_adds_closes_of (l : List io_ctx_s) : route_adds (closes_of l) = [] := by
  induction l with
  | nil => rfl
  | cons n l ih =>
    cases h : n.close_fn <;> simp_all [closes_of, List.filterMap_cons, route_adds]

theorem route_deletes_closes_of (l : List io_ctx_s) : route_deletes (closes_of l) = [] := by
  induction l with
  | nil => rfl
  | cons n l ih =>
    cases h : n.close_fn <;> simp_all [closes_of, List.filterMap_cons, route_deletes]

theorem kill_active_runs_closes_of (l : List io_ctx_s) : kill_active_runs (closes_of l) = [] := by
  induction l with
  | nil => rfl
  | cons n l ih =>
    cases h : n.close_fn <;> simp_all [closes_of, List.filterMap_cons, kill_active_runs]

theorem close_calls_closes_of (l : List io_ctx_s) :
    close_calls (closes_of l) = l.filterMap (fun n => n.close_fn.map (fun f => (f, n.ziti_io))) := by
  induction l with
  | nil => rfl
  | cons n l ih =>
    cases h : n.close_fn <;> simp_all [closes_of, List.filterMap_cons, close_calls]

/-! ## Lemmas on the kill loop -/

theorem kill_list_calls {σ : Type} (E : Handlers σ) (l : List io_ctx_s) (w : World σ) :
    (kill_list E l w).calls = w.calls ++ closes_of l := by
  induction l generalizing w with
  | nil => simp [kill_list, closes_of]
  | cons n l ih =>
    cases h : n.close_fn with
    | none => simp [kill_list, h, ih, closes_of, List.filterMap_cons]
    | some f => simp [kill_list, h, ih, closes_of, List.filterMap_cons]

theorem kill_list_hs {σ : Type} (E : Handlers σ) (l : List io_ctx_s) (w : World σ) :
    (kill_list E l w).hs = close_state E l w.hs := by
  induction l generalizing w with
  | nil => simp [kill_list, close_state]
  | cons n l ih =>
    cases h : n.close_fn with
    | none => simp [kill_list, h, ih, close_state]
    | some f => simp [kill_list, h, ih, close_state]

theorem tunneler_kill_active_calls {σ : Type} (E : Handlers σ) (zi_ctx : Nat) (w : World σ) :
    (tunneler_kill_active E zi_ctx w).calls =
      w.calls ++ (Call.tunneler_tcp_active zi_ctx :: closes_of (E.tunneler_tcp_active w.hs zi_ctx)
        ++ Call.tunneler_udp_active zi_ctx ::
          closes_of (E.tunneler_udp_active
            (close_state E (E.tunneler_tcp_active w.hs zi_ctx) w.hs) zi_ctx)) := by
  simp [tunneler_kill_active, kill_list_calls, kill_list_hs]

theorem tunneler_kill_active_hs {σ : Type} (E : Handlers σ) (zi_ctx : Nat) (w : World σ) :
    (tunneler_kill_active E zi_ctx w).hs =
      close_state E (E.tunneler_udp_active
          (close_state E (E.tunneler_tcp_active w.hs zi_ctx) w.hs) zi_ctx)
        (close_state E (E.tunneler_tcp_active w.hs zi_ctx) w.hs) := by
  simp [tunneler_kill_active, kill_list_hs]

theorem route_deletes_kill_active {σ : Type} (E : Handlers σ) (zi_ctx : Nat) (w : World σ) :
    route_deletes (tunneler_kill_active E zi_ctx w).calls = route_deletes w.calls := by
  rw [tunneler_kill_active_calls]
  simp [route_deletes_append, route_deletes, route_deletes_closes_of]

theorem route_adds_kill_active {σ : Type} (E : Handlers σ) (zi_ctx : Nat) (w : World σ) :
    route_adds (tunneler_kill_active E zi_ctx w).calls = route_adds w.calls := by
  rw [tunneler_kill_active_calls]
  simp [route_adds_append, route_adds, route_adds_closes_of]

theorem kill_active_runs_kill_active {σ : Type} (E : Handlers σ) (zi_ctx : Nat) (w : World σ) :
    kill_active_runs (tunneler_kill_active E zi_ctx w).calls
      = kill_active_runs w.calls ++ [zi_ctx] := by
  rw [tunneler_kill_active_calls]
  simp [kill_active_runs_append, kill_active_runs, kill_active_runs_closes_of]

/-! ## Lemmas on the registry -/

theorem add_routes_calls (d : Option Nat) (l : List address_s) (calls : List Call) :
    add_routes d l calls = calls ++ l.map (Call.add_route d) := by
  induction l generalizing calls with
  | nil => simp [add_routes]
  | cons a l ih => simp [add_routes, ih]

theorem delete_routes_calls (d : Option Nat) (l : List address_s) (calls : List Call) :
    delete_routes d l calls = calls ++ l.map (Call.delete_route d) := by
  induction l generalizing calls with
  | nil => simp [delete_routes]
  | cons a l ih => simp [delete_routes, ih]

theorem route_adds_map_add (d : Option Nat) (l : List address_s) :
    route_adds (l.map (Call.add_route d)) = l.map (fun a => (d, a)) := by
  induction l with
  | nil => rfl
  | cons a l ih => simp [route_adds, ih]

theorem route_deletes_map_add (d : Option Nat) (l : List address_s) :
    route_deletes (l.map (Call.add_route d)) = [] := by
  induction l with
  | nil => rfl
  | cons a l ih => simp [route_deletes, ih]

theorem route_deletes_map_delete (d : Option Nat) (l : List address_s) :
    route_deletes (l.map (Call.delete_route d)) = l.map (fun a => (d, a)) := by
  induction l with
  | nil => rfl
  | cons a l ih => simp [route_deletes, ih]

theorem route_adds_map_delete (d : Option Nat) (l : List address_s) :
    route_adds (l.map (Call.delete_route d)) = [] := by
  induction l with
  | nil => rfl
  | cons a l ih => simp [route_adds, ih]

theorem find_intercept_node_none (l : List intercept_ctx_s) (h : Nat) :
    find_intercept_node l h = none ↔ ∀ i ∈ l, i.app_intercept_ctx ≠ h := by
  induction l with
  | nil => simp [find_intercept_node]
  | cons i l ih =>
    by_cases hi : i.app_intercept_ctx = h
    · simp [find_intercept_node, hi]
    · simp [find_intercept_node, hi, ih]

theorem find_intercept_node_some (l : List intercept_ctx_s) (h k : Nat)
    (hk : find_intercept_node l h = some k) :
    ∃ pre r post, l = pre ++ r :: post ∧ pre.length = k ∧
      (∀ x ∈ pre, x.app_intercept_ctx ≠ h) ∧ r.app_intercept_ctx = h := by
  induction l generalizing k with
  | nil => simp [find_intercept_node] at hk
  | cons i l ih =>
    by_cases hi : i.app_intercept_ctx = h
    · simp [find_intercept_node, hi] at hk
      exact ⟨[], i, l, by simp, by simp [hk], by simp, hi⟩
    · simp [find_intercept_node, hi] at hk
      obtain ⟨k0, hk0, hk1⟩ := hk
      obtain ⟨pre, r, post, hl, hlen, hpre, hr⟩ := ih k0 hk0
      refine ⟨i :: pre, r, post, by simp [hl], by simp [hlen, hk1], ?_, hr⟩
      intro x hx
      rcases List.mem_cons.mp hx with hx | hx
      · exact hx ▸ hi
      · exact hpre x hx

theorem find_intercept_node_split (pre post : List intercept_ctx_s) (r : intercept_ctx_s)
    (h : Nat) (hpre : ∀ x ∈ pre, x.app_intercept_ctx ≠ h) (hr : r.app_intercept_ctx = h) :
    find_intercept_node (pre ++ r :: post) h = some pre.length := by
  induction pre with
  | nil => simp [find_intercept_node, hr]
  | cons x pre ih =>
    have hx : x.app_intercept_ctx ≠ h := hpre x (by simp)
    have := ih (fun y hy => hpre y (by simp [hy]))
    simp [find_intercept_node, hx, this]

theorem find_intercept_exists (l : List intercept_ctx_s) (h : Nat)
    (hex : ∃ i ∈ l, i.app_intercept_ctx = h) :
    ∃ pre r post, l = pre ++ r :: post ∧ find_intercept_node l h = some pre.length ∧
      (∀ x ∈ pre, x.app_intercept_ctx ≠ h) ∧ r.app_intercept_ctx = h := by
  cases hf : find_intercept_node l h with
  | none =>
    obtain ⟨i, hi, hih⟩ := hex
    exact absurd hih ((find_intercept_node_none l h).mp hf i hi)
  | some k =>
    obtain ⟨pre, r, post, hl, hlen, hpre, hr⟩ := find_intercept_node_some l h k hf
    exact ⟨pre, r, post, hl, by rw [hlen], hpre, hr⟩

theorem get?_split (pre post : List intercept_ctx_s) (r : intercept_ctx_s) :
    (pre ++ r :: post).get? pre.length = some r := by
  induction pre with
  | nil => rfl
  | cons x pre ih => simpa using ih

theorem eraseIdx_split (pre post : List intercept_ctx_s) (r : intercept_ctx_s) :
    (pre ++ r :: post).eraseIdx pre.length = pre ++ post := by
  induction pre with
  | nil => rfl
  | cons x pre ih => simpa using ih

/-! ## Lemmas on shutdown -/

theorem shutdown_loop_fst {σ : Type} (E : Handlers σ) (l : List intercept_ctx_s) (w : World σ) :
    (shutdown_loop E l w).1 = [] := by
  induction l generalizing w with
  | nil => rfl
  | cons i l ih => simp [shutdown_loop, ih]

theorem shutdown_loop_snd {σ : Type} (E : Handlers σ) (l : List intercept_ctx_s) (w : World σ) :
    (shutdown_loop E l w).2 =
      (l.map (fun i => i.app_intercept_ctx)).foldl (fun w h => tunneler_kill_active E h w) w := by
  induction l generalizing w with
  | nil => rfl
  | cons i l ih => simp [shutdown_loop, ih]

theorem shutdown_loop_runs {σ : Type} (E : Handlers σ) (l : List intercept_ctx_s) (w : World σ) :
    kill_active_runs (shutdown_loop E l w).2.calls =
      kill_active_runs w.calls ++ l.map (fun i => i.app_intercept_ctx) := by
  induction l generalizing w with
  | nil => simp [shutdown_loop]
  | cons i l ih => simp [shutdown_loop, ih, kill_active_runs_kill_active]

theorem shutdown_loop_route_deletes {σ : Type} (E : Handlers σ) (l : List intercept_ctx_s)
    (w : World σ) :
    route_deletes (shutdown_loop E l w).2.calls = route_deletes w.calls := by
  induction l generalizing w with
  | nil => simp [shutdown_loop]
  | cons i l ih => simp [shutdown_loop, ih, route_deletes_kill_active]

theorem shutdown_loop_route_adds {σ : Type} (E : Handlers σ) (l : List intercept_ctx_s)
    (w : World σ) :
    route_adds (shutdown_loop E l w).2.calls = route_adds w.calls := by
  induction l generalizing w with
  | nil => simp [shutdown_loop]
  | cons i l ih => simp [shutdown_loop, ih, route_adds_kill_active]

/-! ## Port-range construction -/

/-- C1: for 16-bit `low` and `high`, `parse_port_range` (and so
`intercept_ctx_add_port_range`, which returns that range and appends it to the
rule) yields `low = min low high` and `high = max low high`; hence the result has
`low ≤ high`, and both fields stay 16-bit. -/
theorem parse_port_range_min_max (str_size low high : Nat) (i_ctx : intercept_ctx_s)
    (hlow : low < 65536) (hhigh : high < 65536) :
    (parse_port_range str_size low high).low = min low high ∧
    (parse_port_range str_size low high).high = max low high ∧
    (parse_port_range str_size low high).low ≤ (parse_port_range str_size low high).high ∧
    (parse_port_range str_size low high).high < 65536 ∧
    (intercept_ctx_add_port_range str_size i_ctx low high).1
      = parse_port_range str_size low high ∧
    (intercept_ctx_add_port_range str_size i_ctx low high).2.port_ranges
      = i_ctx.port_ranges ++ [parse_port_range str_size low high] := by
  refine ⟨?_, ?_, ?_, ?_, rfl, rfl⟩
  · by_cases h : low ≤ high
    · simp [parse_port_range, h]
    · simp [parse_port_range, h, Nat.min_eq_right (Nat.le_of_not_le h)]
  · by_cases h : low ≤ high
    · simp [parse_port_range, h]
    · simp [parse_port_range, h, Nat.max_eq_left (Nat.le_of_not_le h)]
  · by_cases h : low ≤ high
    · simp [parse_port_range, h]
    · simp [parse_port_range, h, Nat.le_of_not_le h]
  · by_cases h : low ≤ high
    · simp [parse_port_range, h, hhigh]
    · simp [parse_port_range, h, hlow]

/-- Witness for C1 at the reversed pair 443, 80. -/
theorem parse_port_range_min_max_witness :
    (parse_port_range 16 443 80).low = min 443 80 ∧
    (parse_port_range 16 443 80).high = max 443 80 ∧
    (parse_port_range 16 443 80).low ≤ (parse_port_range 16 443 80).high ∧
    (parse_port_range 16 443 80).high < 65536 ∧
    (intercept_ctx_add_port_range 16 rule_a 443 80).1 = parse_port_range 16 443 80 ∧
    (intercept_ctx_add_port_range 16 rule_a 443 80).2.port_ranges
      = rule_a.port_ranges ++ [parse_port_range 16 443 80] :=
  parse_port_range_min_max 16 443 80 rule_a (by decide) (by decide)

/-! ## Registering a rule -/

/-- C2: on an initialized engine with registry `L`, `ziti_tunneler_intercept` of a
rule returns 0 and leaves the registry equal to that rule followed by `L`. After
registering `r1` and then `r2`, a first-match scan with a predicate that both
satisfy returns `r2`, where it returned `r1` before `r2` was registered; the same
holds for `ziti_tunnel_find_intercept` when both carry the same backend handle. -/
theorem ziti_tunneler_intercept_most_recent_first {σ : Type} (ctx : tunneler_ctx_s)
    (r1 r2 : intercept_ctx_s) (w : World σ) (p : intercept_ctx_s → Bool)
    (hp1 : p r1 = true) (hp2 : p r2 = true)
    (hh : r1.app_intercept_ctx = r2.app_intercept_ctx) :
    ∃ ctx1 w1 ctx2 w2,
      ziti_tunneler_intercept (some ctx) (some r1) w = some (0, some ctx1, w1) ∧
      ctx1.intercepts = r1 :: ctx.intercepts ∧
      ziti_tunneler_intercept (some ctx1) (some r2) w1 = some (0, some ctx2, w2) ∧
      ctx2.intercepts = r2 :: r1 :: ctx.intercepts ∧
      ctx1.intercepts.find? p = some r1 ∧
      ctx2.intercepts.find? p = some r2 ∧
      ziti_tunnel_find_intercept (some ctx1) r2.app_intercept_ctx = some r1 ∧
      ziti_tunnel_find_intercept (some ctx2) r2.app_intercept_ctx = some r2 := by
  refine ⟨_, _, _, _, rfl, rfl, rfl, rfl, ?_, ?_, ?_, ?_⟩
  · simp [List.find?, hp1]
  · simp [List.find?, hp2]
  · simp [ziti_tunnel_find_intercept, find_intercept_node, hh]
  · simp [ziti_tunnel_find_intercept, find_intercept_node]

/-- Witness for C2: rules A and B, both with backend handle 1, on the engine that
holds C and A. -/
theorem ziti_tunneler_intercept_most_recent_first_witness :
    ∃ ctx1 w1 ctx2 w2,
      ziti_tunneler_intercept (some engine_two) (some rule_a) world_start
        = some (0, some ctx1, w1) ∧
      ctx1.intercepts = rule_a :: engine_two.intercepts ∧
      ziti_tunneler_intercept (some ctx1) (some rule_b) w1 = some (0, some ctx2, w2) ∧
      ctx2.intercepts = rule_b :: rule_a :: engine_two.intercepts ∧
      ctx1.intercepts.find? (fun i => decide (i.app_intercept_ctx = 1)) = some rule_a ∧
      ctx2.intercepts.find? (fun i => decide (i.app_intercept_ctx = 1)) = some rule_b ∧
      ziti_tunnel_find_intercept (some ctx1) rule_b.app_intercept_ctx = some rule_a ∧
      ziti_tunnel_find_intercept (some ctx2) rule_b.app_intercept_ctx = some rule_b :=
  ziti_tunneler_intercept_most_recent_first engine_two rule_a rule_b world_start
    (fun i => decide (i.app_intercept_ctx = 1)) (by decide) (by decide) (by decide)

/-- C3: on an initialized engine with registry `L`, `ziti_tunneler_intercept` of a
rule `r` followed at once by `ziti_tunneler_stop_intercepting` of its backend
handle leaves the registry equal to `L` (so empty when `L` was empty); the
intercept issues one route-add per address of `r`, in order, the stop issues one
route-delete per address of `r`, in the same order and for the same driver, and
neither issues any other route request. The new rule is at the head of the
registry, so this holds whether or not `L` has a rule with the same handle. -/
theorem ziti_tunneler_intercept_then_stop {σ : Type} (E : Handlers σ) (ctx : tunneler_ctx_s)
    (r : intercept_ctx_s) (w : World σ) :
    ∃ ctx1 w1,
      ziti_tunneler_intercept (some ctx) (some r) w = some (0, some ctx1, w1) ∧
      (ziti_tunneler_stop_intercepting E ctx1 r.app_intercept_ctx w1).1.intercepts
        = ctx.intercepts ∧
      route_adds w1.calls
        = route_adds w.calls ++ r.addresses.map (fun a => (ctx.netif_driver, a)) ∧
      route_deletes w1.calls = route_deletes w.calls ∧
      route_deletes (ziti_tunneler_stop_intercepting E ctx1 r.app_intercept_ctx w1).2.calls
        = route_deletes w.calls ++ r.addresses.map (fun a => (ctx.netif_driver, a)) ∧
      route_adds (ziti_tunneler_stop_intercepting E ctx1 r.app_intercept_ctx w1).2.calls
        = route_adds w1.calls := by
  refine ⟨_, _, rfl, ?_, ?_, ?_, ?_, ?_⟩
  · simp [ziti_tunneler_stop_intercepting, ziti_tunnel_find_intercept, find_intercept_node,
      list_remove_found]
  · simp [add_routes_calls, route_adds_append, route_adds_map_add]
  · simp [add_routes_calls, route_deletes_append, route_deletes_map_add]
  · simp [ziti_tunneler_stop_intercepting, ziti_tunnel_find_intercept, find_intercept_node,
      list_remove_found, route_deletes_kill_active, delete_routes_calls, route_deletes_append,
      route_deletes_map_delete, route_deletes_map_add, add_routes_calls, route_deletes]
  · simp [ziti_tunneler_stop_intercepting, ziti_tunnel_find_intercept, find_intercept_node,
      list_remove_found, route_adds_kill_active, delete_routes_calls, route_adds_append,
      route_adds_map_delete, route_adds]

/-! ## Removing a rule -/

/-- C4: on an initialized engine, for a backend handle `h` that no registered rule
carries, `ziti_tunneler_stop_intercepting` returns, leaves the registry (and the
driver) unchanged, issues no route-delete, and runs `tunneler_kill_active` for `h`
exactly once; when both handlers report no live connection for `h`, that run calls
no close callback and leaves the handler state unchanged. -/
theorem ziti_tunneler_stop_intercepting_unknown {σ : Type} (E : Handlers σ)
    (ctx : tunneler_ctx_s) (h : Nat) (w : World σ)
    (hno : ∀ i ∈ ctx.intercepts, i.app_intercept_ctx ≠ h) :
    (ziti_tunneler_stop_intercepting E ctx h w).1.intercepts = ctx.intercepts ∧
    (ziti_tunneler_stop_intercepting E ctx h w).1.netif_driver = ctx.netif_driver ∧
    (ziti_tunneler_stop_intercepting E ctx h w).2 = tunneler_kill_active E h w ∧
    route_deletes (ziti_tunneler_stop_intercepting E ctx h w).2.calls = route_deletes w.calls ∧
    kill_active_runs (ziti_tunneler_stop_intercepting E ctx h w).2.calls
      = kill_active_runs w.calls ++ [h] ∧
    (E.tunneler_tcp_active w.hs h = [] → E.tunneler_udp_active w.hs h = [] →
      close_calls (ziti_tunneler_stop_intercepting E ctx h w).2.calls = close_calls w.calls ∧
      (ziti_tunneler_stop_intercepting E ctx h w).2.hs = w.hs) := by
  have hnode : find_intercept_node ctx.intercepts h = none :=
    (find_intercept_node_none ctx.intercepts h).mpr hno
  have hstop : ziti_tunneler_stop_intercepting E ctx h w
      = ({ ctx with intercepts_cache := model_map_clear ctx.intercepts_cache },
          tunneler_kill_active E h w) := by
    simp [ziti_tunneler_stop_intercepting, ziti_tunnel_find_intercept, hnode]
  rw [hstop]
  refine ⟨rfl, rfl, rfl, route_deletes_kill_active E h w, kill_active_runs_kill_active E h w, ?_⟩
  intro htcp hudp
  constructor
  · rw [tunneler_kill_active_calls]
    simp [htcp, hudp, close_state, closes_of, close_calls_append, close_calls]
  · rw [tunneler_kill_active_hs]
    simp [htcp, hudp, close_state]

/-- Witness for C4: handle 5 on the engine holding C and A, with idle handlers. -/
theorem ziti_tunneler_stop_intercepting_unknown_witness :
    (∀ i ∈ engine_two.intercepts, i.app_intercept_ctx ≠ 5) ∧
    (ziti_tunneler_stop_intercepting idle_handlers engine_two 5 world_idle).1.intercepts
      = [rule_c, rule_a] ∧
    route_deletes (ziti_tunneler_stop_intercepting idle_handlers engine_two 5 world_idle).2.calls
      = [] ∧
    kill_active_runs
        (ziti_tunneler_stop_intercepting idle_handlers engine_two 5 world_idle).2.calls = [5] ∧
    close_calls (ziti_tunneler_stop_intercepting idle_handlers engine_two 5 world_idle).2.calls
      = [] :=
  have hno : ∀ i ∈ engine_two.intercepts, i.app_intercept_ctx ≠ 5 := by decide
  have key := ziti_tunneler_stop_intercepting_unknown idle_handlers engine_two 5 world_idle hno
  ⟨hno, key.1, key.2.2.2.1, key.2.2.2.2.1, (key.2.2.2.2.2 rfl rfl).1⟩

/-- C5: on an initialized engine, for a backend handle `h` that some registered rule
carries, `ziti_tunneler_stop_intercepting` removes exactly the rule that
`ziti_tunnel_find_intercept` returns, which is the first rule in registry order
with handle `h`; the rules before and after it stay, in their order; and the
route-delete requests of the call are one per address of that rule, in the rule's
address order, and no other. -/
theorem ziti_tunneler_stop_intercepting_removes_first {σ : Type} (E : Handlers σ)
    (ctx : tunneler_ctx_s) (h : Nat) (w : World σ)
    (hex : ∃ i ∈ ctx.intercepts, i.app_intercept_ctx = h) :
    ∃ pre r post,
      ctx.intercepts = pre ++ r :: post ∧
      (∀ x ∈ pre, x.app_intercept_ctx ≠ h) ∧
      r.app_intercept_ctx = h ∧
      ziti_tunnel_find_intercept (some ctx) h = some r ∧
      (ziti_tunneler_stop_intercepting E ctx h w).1.intercepts = pre ++ post ∧
      route_deletes (ziti_tunneler_stop_intercepting E ctx h w).2.calls
        = route_deletes w.calls ++ r.addresses.map (fun a => (ctx.netif_driver, a)) := by
  obtain ⟨pre, r, post, hl, hnode, hpre, hr⟩ := find_intercept_exists ctx.intercepts h hex
  have hget : ctx.intercepts.get? pre.length = some r := by rw [hl]; exact get?_split pre post r
  have herase : ctx.intercepts.eraseIdx pre.length = pre ++ post := by
    rw [hl]; exact eraseIdx_split pre post r
  have hfind : ziti_tunnel_find_intercept (some ctx) h = some r := by
    simp only [ziti_tunnel_find_intercept, hnode, hget]
  have hfind2 : ziti_tunnel_find_intercept
      (some { ctx with intercepts_cache := model_map_clear ctx.intercepts_cache }) h = some r := by
    simp only [ziti_tunnel_find_intercept, hnode, hget]
  refine ⟨pre, r, post, hl, hpre, hr, hfind, ?_, ?_⟩
  · simp only [ziti_tunneler_stop_intercepting, hfind2, list_remove_found, hnode, herase]
  · simp only [ziti_tunneler_stop_intercepting, hfind2]
    simp [route_deletes_kill_active, delete_routes_calls, route_deletes_append,
      route_deletes_map_delete, route_deletes]

/-- Witness for C5: handle 1 on the engine holding C and A removes A, the second
rule, and deletes the one route of A. -/
theorem ziti_tunneler_stop_intercepting_removes_first_witness :
    (∃ i ∈ engine_two.intercepts, i.app_intercept_ctx = 1) ∧
    (∃ pre r post,
      engine_two.intercepts = pre ++ r :: post ∧
      (∀ x ∈ pre, x.app_intercept_ctx ≠ 1) ∧
      r.app_intercept_ctx = 1 ∧
      ziti_tunnel_find_intercept (some engine_two) 1 = some r ∧
      (ziti_tunneler_stop_intercepting sample_handlers engine_two 1 world_start).1.intercepts
        = pre ++ post ∧
      route_deletes (ziti_tunneler_stop_intercepting sample_handlers engine_two 1 world_start).2.calls
        = route_deletes world_start.calls
          ++ r.addresses.map (fun a => (engine_two.netif_driver, a))) ∧
    (ziti_tunneler_stop_intercepting sample_handlers engine_two 1 world_start).1.intercepts
      = [rule_c] ∧
    route_deletes (ziti_tunneler_stop_intercepting sample_handlers engine_two 1 world_start).2.calls
      = [(some 7, { za := 1, str := "10.0.0.1/32" })] :=
  have hex : ∃ i ∈ engine_two.intercepts, i.app_intercept_ctx = 1 :=
    ⟨rule_a, by decide, by decide⟩
  ⟨hex, ziti_tunneler_stop_intercepting_removes_first sample_handlers engine_two 1 world_start hex,
    by decide, by decide⟩

/-! ## Shutdown -/

/-- C6: for every engine with registry `L`, `ziti_tunneler_shutdown` returns with an
empty registry; it has run `tunneler_kill_active` exactly once per rule of `L`,
with that rule's backend handle, in registry order, and nothing else; and it has
issued no route-delete (and no route-add) request. -/
theorem ziti_tunneler_shutdown_empties {σ : Type} (E : Handlers σ) (ctx : tunneler_ctx_s)
    (w : World σ) :
    (ziti_tunneler_shutdown E ctx w).1.intercepts = [] ∧
    (ziti_tunneler_shutdown E ctx w).2 =
      (ctx.intercepts.map (fun i => i.app_intercept_ctx)).foldl
        (fun w h => tunneler_kill_active E h w) w ∧
    kill_active_runs (ziti_tunneler_shutdown E ctx w).2.calls =
      kill_active_runs w.calls ++ ctx.intercepts.map (fun i => i.app_intercept_ctx) ∧
    route_deletes (ziti_tunneler_shutdown E ctx w).2.calls = route_deletes w.calls ∧
    route_adds (ziti_tunneler_shutdown E ctx w).2.calls = route_adds w.calls :=
  ⟨shutdown_loop_fst E ctx.intercepts w, shutdown_loop_snd E ctx.intercepts w,
    shutdown_loop_runs E ctx.intercepts w, shutdown_loop_route_deletes E ctx.intercepts w,
    shutdown_loop_route_adds E ctx.intercepts w⟩

/-! ## Failed registration -/

/-- C7: whenever `ziti_tunneler_intercept` returns a failure code (a value other
than 0), the engine (registry and address cache) and the world (all route requests
issued so far) are exactly as before the call; the code returned is -1 and the
engine is the null one, for which the call returns -1 and logs no call at all. -/
theorem ziti_tunneler_intercept_failure_unchanged {σ : Type} (tnlr_ctx : Option tunneler_ctx_s)
    (i_ctx : Option intercept_ctx_s) (w : World σ) (ret : Int)
    (tnlr_ctx1 : Option tunneler_ctx_s) (w1 : World σ)
    (hcall : ziti_tunneler_intercept tnlr_ctx i_ctx w = some (ret, tnlr_ctx1, w1))
    (hfail : ret ≠ 0) :
    tnlr_ctx1 = tnlr_ctx ∧ w1 = w ∧ route_adds w1.calls = route_adds w.calls ∧
    ret = -1 ∧ tnlr_ctx = none ∧
    ziti_tunneler_intercept none i_ctx w = some (-1, none, w) := by
  cases tnlr_ctx with
  | none =>
    simp only [ziti_tunneler_intercept, Option.some.injEq, Prod.mk.injEq] at hcall
    obtain ⟨h1, h2, h3⟩ := hcall
    subst h1 h2 h3
    exact ⟨rfl, rfl, rfl, rfl, rfl, rfl⟩
  | some ctx =>
    cases i_ctx with
    | none => simp [ziti_tunneler_intercept] at hcall
    | some i =>
      simp only [ziti_tunneler_intercept, Option.some.injEq, Prod.mk.injEq] at hcall
      exact absurd hcall.1.symm hfail

/-- Witness for C7: the null engine with rule B. -/
theorem ziti_tunneler_intercept_failure_unchanged_witness :
    ziti_tunneler_intercept none (some rule_b) world_start = some (-1, none, world_start) ∧
    (none : Option tunneler_ctx_s) = none ∧ world_start = world_start ∧
    route_adds world_start.calls = route_adds world_start.calls ∧
    (-1 : Int) = -1 ∧ (none : Option tunneler_ctx_s) = none ∧
    ziti_tunneler_intercept none (some rule_b) world_start = some (-1, none, world_start) :=
  ⟨rfl, ziti_tunneler_intercept_failure_unchanged none (some rule_b) world_start (-1) none
    world_start rfl (by decide)⟩

/-! ## Address cache -/

/-- A successful `ziti_tunneler_intercept` leaves the address cache empty. -/
theorem ziti_tunneler_intercept_clears_cache {σ : Type} (ctx : tunneler_ctx_s)
    (i : intercept_ctx_s) (w : World σ) :
    ∃ ctx1 w1, ziti_tunneler_intercept (some ctx) (some i) w = some (0, some ctx1, w1) ∧
      ctx1.intercepts_cache = [] :=
  ⟨_, _, rfl, rfl⟩

/-- Every `ziti_tunneler_stop_intercepting` leaves the address cache empty. -/
theorem ziti_tunneler_stop_intercepting_clears_cache {σ : Type} (E : Handlers σ)
    (ctx : tunneler_ctx_s) (h : Nat) (w : World σ) :
    (ziti_tunneler_stop_intercepting E ctx h w).1.intercepts_cache = [] := by
  simp only [ziti_tunneler_stop_intercepting]
  cases ziti_tunnel_find_intercept
      (some { ctx with intercepts_cache := model_map_clear ctx.intercepts_cache }) h <;> rfl

/-- The engine after `ziti_tunneler_shutdown` has the address cache it had before. -/
theorem ziti_tunneler_shutdown_cache {σ : Type} (E : Handlers σ) (ctx : tunneler_ctx_s)
    (w : World σ) :
    (ziti_tunneler_shutdown E ctx w).1.intercepts_cache = ctx.intercepts_cache :=
  rfl

/-- C8 at the failing input: `ziti_tunneler_shutdown` on the engine that holds the
rules C and A and one cached lookup removes both rules and leaves the cached lookup
in `intercepts_cache`, which is therefore not empty. -/
theorem ziti_tunneler_shutdown_keeps_cache :
    engine_two.intercepts ≠ [] ∧
    (ziti_tunneler_shutdown sample_handlers engine_two world_start).1.intercepts = [] ∧
    (ziti_tunneler_shutdown sample_handlers engine_two world_start).1.intercepts_cache
      = [("tcp:10.0.0.1:80", 1)] ∧
    (ziti_tunneler_shutdown sample_handlers engine_two world_start).1.intercepts_cache ≠ [] := by
  decide

/-! ## Write -/

/-- A null I/O context: `ziti_tunneler_write` returns -1 and calls no handler. -/
theorem ziti_tunneler_write_null (H : WriteHandlers) (r_uninit : Int) (data : List Nat)
    (len : Nat) : ziti_tunneler_write H r_uninit none data len = (-1, []) :=
  rfl

/-- A tcp or udp context: `ziti_tunneler_write` returns what the one handler call returns. -/
theorem ziti_tunneler_write_known (H : WriteHandlers) (r_uninit : Int)
    (io : tunneler_io_ctx_s) (data : List Nat) (len : Nat) :
    (io.proto = tunnel_proto_type.tun_tcp →
      ziti_tunneler_write H r_uninit (some io) data len
        = (H.tunneler_tcp_write io.tcp data len, [WriteCall.tunneler_tcp_write io.tcp data len])) ∧
    (io.proto = tunnel_proto_type.tun_udp →
      ziti_tunneler_write H r_uninit (some io) data len
        = (H.tunneler_udp_write io.udp data len, [WriteCall.tunneler_udp_write io.udp data len])) := by
  constructor <;> intro h <;> simp [ziti_tunneler_write, h]

/-- Any other protocol tag: `ziti_tunneler_write` calls no handler and returns the
value of its unassigned local. -/
theorem ziti_tunneler_write_other (H : WriteHandlers) (r_uninit : Int)
    (io : tunneler_io_ctx_s) (data : List Nat) (len : Nat) (tag : Nat)
    (h : io.proto = tunnel_proto_type.other tag) :
    ziti_tunneler_write H r_uninit (some io) data len = (r_uninit, []) := by
  simp [ziti_tunneler_write, h]

/-- C9 at the failing input: for the I/O context with protocol tag 2, neither tcp
nor udp, and the unassigned local holding 0, `ziti_tunneler_write` calls no handler
and returns 0, which is not negative. -/
theorem ziti_tunneler_write_unknown_not_failure :
    io_unknown.proto ≠ tunnel_proto_type.tun_tcp ∧
    io_unknown.proto ≠ tunnel_proto_type.tun_udp ∧
    ziti_tunneler_write accepting_writes 0 (some io_unknown) [104, 105] 2 = (0, []) ∧
    ¬ (ziti_tunneler_write accepting_writes 0 (some io_unknown) [104, 105] 2).1 < 0 := by
  decide

/-! ## Kill-active termination -/

/-- C10: for every backend handle `h`, `tunneler_kill_active` returns, and the calls
it makes are: `tunneler_tcp_active h`, one close-callback call on the backend
object of each entry of the list the TCP handler reports that has a close
callback, in list order, then `tunneler_udp_active h` and the same for the list
the UDP handler reports at that point. The close-callback calls it adds to the
log are thus exactly those of the two reported lists, one per entry with a
callback, and the handler state is the one those calls produce. -/
theorem tunneler_kill_active_closes_reported {σ : Type} (E : Handlers σ) (h : Nat)
    (w : World σ) :
    (tunneler_kill_active E h w).calls =
      w.calls ++ (Call.tunneler_tcp_active h :: closes_of (E.tunneler_tcp_active w.hs h)
        ++ Call.tunneler_udp_active h ::
          closes_of (E.tunneler_udp_active
            (close_state E (E.tunneler_tcp_active w.hs h) w.hs) h)) ∧
    close_calls (tunneler_kill_active E h w).calls =
      close_calls w.calls ++
        (E.tunneler_tcp_active w.hs h ++
          E.tunneler_udp_active (close_state E (E.tunneler_tcp_active w.hs h) w.hs) h).filterMap
            (fun n => n.close_fn.map (fun f => (f, n.ziti_io))) ∧
    (tunneler_kill_active E h w).hs =
      close_state E
        (E.tunneler_udp_active (close_state E (E.tunneler_tcp_active w.hs h) w.hs) h)
        (close_state E (E.tunneler_tcp_active w.hs h) w.hs) := by
  refine ⟨tunneler_kill_active_calls E h w, ?_, tunneler_kill_active_hs E h w⟩
  rw [tunneler_kill_active_calls]
  simp [close_calls_append, close_calls, close_calls_closes_of, List.filterMap_append]

/-! ## Dial completion -/

/-- C11 as stated fails: for the non-null I/O context around `io_unknown`, whose
protocol tag is neither tcp nor udp, `ziti_tunneler_dial_completed` returns
without invoking any completion function, so it does not invoke exactly one. -/
theorem ziti_tunneler_dial_completed_unknown_invokes_none :
    ziti_tunneler_dial_completed (some (io_around io_unknown)) true = some [] ∧
    ¬ ∃ c, ziti_tunneler_dial_completed (some (io_around io_unknown)) true = some [c] := by
  constructor
  · rfl
  · rintro ⟨c, hc⟩
    have h0 : ziti_tunneler_dial_completed (some (io_around io_unknown)) true = some [] := rfl
    rw [h0] at hc
    simp at hc

/-- C11, amended: for a non-null I/O context whose engine-side record is present and
every `ok`, `ziti_tunneler_dial_completed` returns having invoked exactly the TCP
completion when the tag is tcp, exactly the UDP completion when the tag is udp,
each once and with the same context and the same `ok`, and no completion when the
tag is neither; for a null I/O context it returns having invoked none. -/
theorem ziti_tunneler_dial_completed_demux (io : io_ctx_s) (tnlr_io : tunneler_io_ctx_s)
    (ok : Bool) (ht : io.tnlr_io = some tnlr_io) :
    (tnlr_io.proto = tunnel_proto_type.tun_tcp →
      ziti_tunneler_dial_completed (some io) ok
        = some [DialCall.tunneler_tcp_dial_completed io ok]) ∧
    (tnlr_io.proto = tunnel_proto_type.tun_udp →
      ziti_tunneler_dial_completed (some io) ok
        = some [DialCall.tunneler_udp_dial_completed io ok]) ∧
    (∀ tag, tnlr_io.proto = tunnel_proto_type.other tag →
      ziti_tunneler_dial_completed (some io) ok = some []) ∧
    ziti_tunneler_dial_completed none ok = some [] := by
  refine ⟨?_, ?_, ?_, rfl⟩
  · intro h; simp [ziti_tunneler_dial_completed, ht, h]
  · intro h; simp [ziti_tunneler_dial_completed, ht, h]
  · intro tag h; simp [ziti_tunneler_dial_completed, ht, h]

/-- Witness for C11, amended: a TCP and a UDP context, with `ok` true and false. -/
theorem ziti_tunneler_dial_completed_demux_witness :
    ziti_tunneler_dial_completed (some (io_around io_tcp)) true
      = some [DialCall.tunneler_tcp_dial_completed (io_around io_tcp) true] ∧
    ziti_tunneler_dial_completed (some (io_around io_udp)) false
      = some [DialCall.tunneler_udp_dial_completed (io_around io_udp) false] :=
  ⟨(ziti_tunneler_dial_completed_demux (io_around io_tcp) io_tcp true rfl).1 rfl,
    (ziti_tunneler_dial_completed_demux (io_around io_udp) io_udp false rfl).2.1 rfl⟩

/-! ## Close -/

/-- C12: for a non-null I/O context with tag tcp or udp, `ziti_tunneler_close`
returns 0 and makes, in order: the close of the matching handler, once, on the
context's control block; `uv_close` of the connection timer when there is one;
the release of the service name when there is one; and `free` of the context, in
which the control block and the timer have been cleared. For a null I/O context
it returns 0 and makes no call. -/
theorem ziti_tunneler_close_known (io : tunneler_io_ctx_s)
    (hp : io.proto = tunnel_proto_type.tun_tcp ∨ io.proto = tunnel_proto_type.tun_udp) :
    (ziti_tunneler_close (some io)).1 = 0 ∧
    (ziti_tunneler_close (some io)).2 =
      (if io.proto = tunnel_proto_type.tun_tcp then CloseCall.tunneler_tcp_close io.tcp
        else CloseCall.tunneler_udp_close io.udp) ::
        (io.conn_timer.toList.map CloseCall.uv_close
          ++ io.service_name.toList.map CloseCall.free_service_name
          ++ [CloseCall.free_io
              (if io.proto = tunnel_proto_type.tun_tcp
                then { io with tcp := none, conn_timer := none }
                else { io with udp := none, conn_timer := none })]) ∧
    ziti_tunneler_close none = (0, []) := by
  refine ⟨rfl, ?_, rfl⟩
  rcases hp with h | h
  · cases ht : io.conn_timer <;> cases hn : io.service_name <;>
      simp [ziti_tunneler_close, free_tunneler_io_context, h, ht, hn]
  · cases ht : io.conn_timer <;> cases hn : io.service_name <;>
      simp [ziti_tunneler_close, free_tunneler_io_context, h, ht, hn]

/-- Witness for C12: the TCP context, which has a timer and a service name. -/
theorem ziti_tunneler_close_known_witness :
    (ziti_tunneler_close (some io_tcp)).1 = 0 ∧
    (ziti_tunneler_close (some io_tcp)).2 =
      [CloseCall.tunneler_tcp_close (some 40), CloseCall.uv_close 9,
        CloseCall.free_service_name "A",
        CloseCall.free_io { io_tcp with tcp := none, conn_timer := none }] :=
  have key := ziti_tunneler_close_known io_tcp (Or.inl rfl)
  ⟨key.1, key.2.1⟩

/-! ## Write acknowledgement -/

/-- C13: for a write context `w` allocated at address `write_ctx`,
`ziti_tunneler_ack` invokes the completion stored in `w` exactly once, with
`write_ctx` as its argument, then frees `write_ctx`: afterwards the address holds
no write context, every other address is as before, and a second
`ziti_tunneler_ack` of the same address has no defined result. -/
theorem ziti_tunneler_ack_once (heap : Nat → Option write_ctx_s) (write_ctx : Nat)
    (w : write_ctx_s) (hw : heap write_ctx = some w) :
    ∃ heap1,
      ziti_tunneler_ack heap write_ctx
        = some (heap1, [AckCall.ack w.ack write_ctx, AckCall.free write_ctx]) ∧
      heap1 write_ctx = none ∧
      (∀ p, p ≠ write_ctx → heap1 p = heap p) ∧
      ziti_tunneler_ack heap1 write_ctx = none := by
  refine ⟨fun p => if p = write_ctx then none else heap p, ?_, ?_, ?_, ?_⟩
  · simp [ziti_tunneler_ack, hw]
  · simp
  · intro p hp; simp [hp]
  · simp [ziti_tunneler_ack]

/-- Witness for C13: the write context at address 100. -/
theorem ziti_tunneler_ack_once_witness :
    ∃ heap1,
      ziti_tunneler_ack heap_one 100 = some (heap1, [AckCall.ack 8 100, AckCall.free 100]) ∧
      heap1 100 = none ∧
      (∀ p, p ≠ 100 → heap1 p = heap_one p) ∧
      ziti_tunneler_ack heap1 100 = none :=
  ziti_tunneler_ack_once heap_one 100 { ack := 8 } rfl

/-! ## Cross-thread dispatch -/

/-- C14: for every function `fn` and argument `arg` given to `ziti_tunnel_async_send`
(on an engine or on the default loop), with `e` the result of `uv_async_init`:
when `e` is 0 the call registers the handle under the semaphore and signals it
once; the wrapper run on that handle invokes `fn` exactly once, with the handle's
loop and the captured `arg`, and then closes the handle, whose close callback
frees the call record and the handle. When `e` is not 0 the call frees the call
record and the handle and returns: no handle is signalled and `fn` is not invoked. -/
theorem ziti_tunnel_async_send_dispatch (uv_default_loop : Nat) (tctx : Option tunneler_loop_s)
    (fn arg : Nat) (e : Int) :
    ziti_tunnel_async_send uv_default_loop tctx (some fn) arg e =
      (if e = 0 then
        ([AsyncCall.uv_sem_wait (tctx.map (fun t => t.sem)),
          AsyncCall.uv_async_init ((tctx.map (fun t => t.loop)).getD uv_default_loop)
            { data := some { f := some fn, arg := arg }, loop := none },
          AsyncCall.uv_sem_post (tctx.map (fun t => t.sem)),
          AsyncCall.uv_async_send
            { data := some { f := some fn, arg := arg },
              loop := some ((tctx.map (fun t => t.loop)).getD uv_default_loop) }],
         some { data := some { f := some fn, arg := arg },
                loop := some ((tctx.map (fun t => t.loop)).getD uv_default_loop) })
      else
        ([AsyncCall.uv_sem_wait (tctx.map (fun t => t.sem)),
          AsyncCall.uv_async_init ((tctx.map (fun t => t.loop)).getD uv_default_loop)
            { data := some { f := some fn, arg := arg }, loop := none },
          AsyncCall.uv_sem_post (tctx.map (fun t => t.sem)),
          AsyncCall.free_call { f := some fn, arg := arg },
          AsyncCall.free_async { data := some { f := some fn, arg := arg }, loop := none }],
         none)) ∧
    (∀ loop : Option Nat,
      ziti_tunnel_async_wrapper { data := some { f := some fn, arg := arg }, loop := loop } =
        [AsyncCall.call_f fn loop arg,
          AsyncCall.uv_close { data := some { f := some fn, arg := arg }, loop := loop }] ∧
      async_close_cb { data := some { f := some fn, arg := arg }, loop := loop } =
        [AsyncCall.free_call { f := some fn, arg := arg },
          AsyncCall.free_async { data := some { f := some fn, arg := arg }, loop := loop }]) := by
  refine ⟨?_, fun loop => ⟨rfl, rfl⟩⟩
  by_cases he : e = 0
  · cases tctx <;> simp [ziti_tunnel_async_send, he]
  · cases tctx <;> simp [ziti_tunnel_async_send, he]

/-- Witness for C14: function 33 with argument 44 on the sample engine, registration
succeeding, and on the default loop, registration failing with -12. -/
theorem ziti_tunnel_async_send_dispatch_witness :
    ziti_tunnel_async_send 0 (some tctx_sample) (some 33) 44 0 =
      ([AsyncCall.uv_sem_wait (some 2),
        AsyncCall.uv_async_init 1 { data := some { f := some 33, arg := 44 }, loop := none },
        AsyncCall.uv_sem_post (some 2),
        AsyncCall.uv_async_send { data := some { f := some 33, arg := 44 }, loop := some 1 }],
       some { data := some { f := some 33, arg := 44 }, loop := some 1 }) ∧
    ziti_tunnel_async_wrapper { data := some { f := some 33, arg := 44 }, loop := some 1 } =
      [AsyncCall.call_f 33 (some 1) 44,
        AsyncCall.uv_close { data := some { f := some 33, arg := 44 }, loop := some 1 }] ∧
    ziti_tunnel_async_send 0 none (some 33) 44 (-12) =
      ([AsyncCall.uv_sem_wait none,
        AsyncCall.uv_async_init 0 { data := some { f := some 33, arg := 44 }, loop := none },
        AsyncCall.uv_sem_post none,
        AsyncCall.free_call { f := some 33, arg := 44 },
        AsyncCall.free_async { data := some { f := some 33, arg := 44 }, loop := none }],
       none) :=
  ⟨(ziti_tunnel_async_send_dispatch 0 (some tctx_sample) 33 44 0).1,
    ((ziti_tunnel_async_send_dispatch 0 (some tctx_sample) 33 44 0).2 (some 1)).1,
    (ziti_tunnel_async_send_dispatch 0 none 33 44 (-12)).1⟩

/-! ## Route exclusion -/

/-- The interface scan reaches `goto done` exactly when some IPv4 interface has the
resolved IPv4 address in its subnet. -/
theorem if_addrs_scan_iff (addrinfo : addrinfo_s) (if_addrs : List uv_interface_address_s) :
    if_addrs_scan addrinfo if_addrs = true ↔
      ∃ a ∈ if_addrs, a.address.sa_family = sa_family_t.AF_INET ∧
        addrinfo.ai_family = sa_family_t.AF_INET ∧
        a.address.s_addr &&& a.netmask.s_addr = addrinfo.ai_addr.s_addr &&& a.netmask.s_addr := by
  induction if_addrs with
  | nil => simp [if_addrs_scan]
  | cons a rest ih =>
    by_cases hf : a.address.sa_family = sa_family_t.AF_INET ∧
        addrinfo.ai_family = sa_family_t.AF_INET
    · by_cases hm : a.address.s_addr &&& a.netmask.s_addr
          = addrinfo.ai_addr.s_addr &&& a.netmask.s_addr
      · simp [if_addrs_scan, hf, hm]
      · simp [if_addrs_scan, hf, hm, ih]
    · have hf2 : ¬ (a.address.sa_family = sa_family_t.AF_INET ∧
          addrinfo.ai_family = sa_family_t.AF_INET ∧
          a.address.s_addr &&& a.netmask.s_addr
            = addrinfo.ai_addr.s_addr &&& a.netmask.s_addr) :=
        fun h => hf ⟨h.1, h.2.1⟩
      simp [if_addrs_scan, hf, hf2, ih]

/-- The exclusion loop requests a route for each resolved address that comes before
the first one found local, and for nothing else. -/
theorem exclude_loop_takeWhile (uv_ip4_name : sockaddr_s → String) (fn handle : Nat)
    (if_addrs : List uv_interface_address_s) (l : List addrinfo_s) :
    exclude_loop uv_ip4_name fn handle if_addrs l =
      (l.takeWhile (fun ai => !if_addrs_scan ai if_addrs)).map
        (fun ai => ExcludeCall.exclude_rt fn handle (uv_ip4_name ai.ai_addr)) := by
  induction l with
  | nil => rfl
  | cons ai rest ih =>
    cases h : if_addrs_scan ai if_addrs <;> simp [exclude_loop, List.takeWhile, h, ih]

/-- C16 at the failing input: with the interface `192.168.1.5/255.255.255.0` and a
name resolving to `192.168.1.10` and then `8.8.8.8`, the address `8.8.8.8` lies
in no local subnet, yet `ziti_tunneler_exclude_route` asks the driver for no
exclusion route at all; with the two resolved addresses in the other order it
asks for the route `8.8.8.8`. -/
theorem ziti_tunneler_exclude_route_stops_at_local :
    if_addrs_scan { ai_family := sa_family_t.AF_INET, ai_addr := inet 0x08080808 }
      if_addrs_sample = false ∧
    ziti_tunneler_exclude_route dotted (some driver_sample) (some if_addrs_sample)
      addrinfo_sample = [] ∧
    ziti_tunneler_exclude_route dotted (some driver_sample) (some if_addrs_sample)
      addrinfo_sample.reverse = [ExcludeCall.exclude_rt 22 7 "8.8.8.8"] := by
  decide

/-! ## Engine initialization -/

/-- With all five callbacks set, `run_packet_loop` passes the callback check: its
first call is `lwip_init`. -/
theorem run_packet_loop_passes_check (env : InitEnv) (loop : Nat)
    (netif_driver : Option netif_driver_s) (fd fc fcw fw fh : Nat) :
    (run_packet_loop env loop
      { netif_driver := netif_driver, ziti_dial := some fd, ziti_close := some fc,
        ziti_close_write := some fcw, ziti_write := some fw,
        ziti_host := some fh }).1.head? = some InitCall.lwip_init := by
  simp only [run_packet_loop]
  simp only [reduceCtorEq, or_self, if_false]
  repeat' split
  all_goals simp

/-- C17: when at least one of the five callbacks dial, write, close, close-write and
host is null, `run_packet_loop` ends in `exit(1)` before any call to the embedded
stack, the interface driver or the event loop, and so does `ziti_tunneler_init`
once the engine record is allocated, having only initialized the semaphores. With
all five set, whatever they are, the first call of `run_packet_loop` is
`lwip_init`: the check has passed. -/
theorem run_packet_loop_null_callback_fatal (env : InitEnv) (loop : Nat)
    (opts : tunneler_sdk_options)
    (hnull : opts.ziti_dial = none ∨ opts.ziti_write = none ∨ opts.ziti_close = none ∨
      opts.ziti_close_write = none ∨ opts.ziti_host = none)
    (halloc : env.calloc_ok = true) :
    run_packet_loop env loop opts = ([], Outcome.exited 1) ∧
    ziti_tunneler_init env (some opts) loop
      = ([InitCall.uv_sem_init, InitCall.uv_once], Outcome.exited 1, none) ∧
    (∀ fd fc fcw fw fh : Nat,
      (run_packet_loop env loop
        { opts with
          ziti_dial := some fd, ziti_close := some fc,
          ziti_close_write := some fcw, ziti_write := some fw,
          ziti_host := some fh }).1.head? = some InitCall.lwip_init) := by
  have hcond : opts.ziti_close = none ∨ opts.ziti_close_write = none ∨ opts.ziti_write = none ∨
      opts.ziti_dial = none ∨ opts.ziti_host = none := by
    rcases hnull with h | h | h | h | h <;> simp [h]
  have hrun : run_packet_loop env loop opts = ([], Outcome.exited 1) := by
    simp only [run_packet_loop, hcond, if_true]
  refine ⟨hrun, ?_, ?_⟩
  · simp [ziti_tunneler_init, create_tunneler_ctx, halloc, hrun]
  · intro fd fc fcw fw fh
    exact run_packet_loop_passes_check env loop opts.netif_driver fd fc fcw fw fh

/-- Witness for C17: the options whose host callback is null. -/
theorem run_packet_loop_null_callback_fatal_witness :
    run_packet_loop env_ok 1 opts_no_host = ([], Outcome.exited 1) ∧
    ziti_tunneler_init env_ok (some opts_no_host) 1
      = ([InitCall.uv_sem_init, InitCall.uv_once], Outcome.exited 1, none) ∧
    (run_packet_loop env_ok 1 opts_full).1.head? = some InitCall.lwip_init :=
  have key := run_packet_loop_null_callback_fatal env_ok 1 opts_no_host
    (Or.inr (Or.inr (Or.inr (Or.inr rfl)))) rfl
  ⟨key.1, key.2.1, key.2.2 11 12 13 14 15⟩

/-! ## Stack timer -/

/-- The four runs of `check_lwip_timeouts`, by whether the timer was active on
entry and whether both TCP lists are empty once the due timeouts ran. -/
theorem check_lwip_timeouts_cases {σ : Type} (L : Lwip σ) (timer : uv_timer_s) (s : σ) :
    (timer.active = false →
      (L.tcp_active_pcbs (L.sys_check_timeouts (L.sys_restart_timeouts s)) = [] ∧
          L.tcp_tw_pcbs (L.sys_check_timeouts (L.sys_restart_timeouts s)) = [] →
        check_lwip_timeouts L timer s =
          (L.sys_check_timeouts (L.sys_restart_timeouts s), { timer with active := false },
            [TimerCall.sys_restart_timeouts, TimerCall.sys_check_timeouts,
              TimerCall.uv_timer_stop])) ∧
      (¬ (L.tcp_active_pcbs (L.sys_check_timeouts (L.sys_restart_timeouts s)) = [] ∧
          L.tcp_tw_pcbs (L.sys_check_timeouts (L.sys_restart_timeouts s)) = []) →
        check_lwip_timeouts L timer s =
          (L.sys_check_timeouts (L.sys_restart_timeouts s),
            { active := true,
              timeout := L.sys_timeouts_sleeptime (L.sys_check_timeouts (L.sys_restart_timeouts s)),
              repeat_ := L.sys_timeouts_sleeptime (L.sys_check_timeouts (L.sys_restart_timeouts s)) },
            [TimerCall.sys_restart_timeouts, TimerCall.sys_check_timeouts,
              TimerCall.uv_timer_start
                (L.sys_timeouts_sleeptime (L.sys_check_timeouts (L.sys_restart_timeouts s)))
                (L.sys_timeouts_sleeptime (L.sys_check_timeouts (L.sys_restart_timeouts s)))]))) ∧
    (timer.active = true →
      (L.tcp_active_pcbs (L.sys_check_timeouts s) = [] ∧
          L.tcp_tw_pcbs (L.sys_check_timeouts s) = [] →
        check_lwip_timeouts L timer s =
          (L.sys_check_timeouts s, { timer with active := false },
            [TimerCall.sys_check_timeouts, TimerCall.uv_timer_stop])) ∧
      (¬ (L.tcp_active_pcbs (L.sys_check_timeouts s) = [] ∧
          L.tcp_tw_pcbs (L.sys_check_timeouts s) = []) →
        check_lwip_timeouts L timer s =
          (L.sys_check_timeouts s,
            { active := true,
              timeout := L.sys_timeouts_sleeptime (L.sys_check_timeouts s),
              repeat_ := L.sys_timeouts_sleeptime (L.sys_check_timeouts s) },
            [TimerCall.sys_check_timeouts,
              TimerCall.uv_timer_start (L.sys_timeouts_sleeptime (L.sys_check_timeouts s))
                (L.sys_timeouts_sleeptime (L.sys_check_timeouts s))]))) := by
  refine ⟨fun ha => ⟨fun he => ?_, fun he => ?_⟩, fun ha => ⟨fun he => ?_, fun he => ?_⟩⟩
  · simp only [check_lwip_timeouts, ha, if_true]
    rw [if_pos he]; rfl
  · simp only [check_lwip_timeouts, ha, if_true]
    rw [if_neg he]; rfl
  · simp only [check_lwip_timeouts, ha, Bool.true_eq_false, if_false]
    rw [if_pos he]; rfl
  · simp only [check_lwip_timeouts, ha, Bool.true_eq_false, if_false]
    rw [if_neg he]; rfl

/-- C18: on a fire of the stack timer, with `s1` the stack state after the due
timeouts ran: `sys_restart_timeouts` is called if and only if the timer was
inactive on entry, and then first; `sys_check_timeouts` is called exactly once;
when both the active and the time-wait TCP lists of `s1` are empty the last call
is `uv_timer_stop`, no `uv_timer_start` is made and the timer ends inactive;
otherwise the last call is `uv_timer_start` with the stack's sleep time of `s1`
as both timeout and repeat, `uv_timer_stop` is not called, and the timer ends
active with that timeout and repeat. -/
theorem check_lwip_timeouts_discipline {σ : Type} (L : Lwip σ) (timer : uv_timer_s) (s : σ) :
    (check_lwip_timeouts L timer s).1
      = L.sys_check_timeouts (if timer.active = false then L.sys_restart_timeouts s else s) ∧
    (TimerCall.sys_restart_timeouts ∈ (check_lwip_timeouts L timer s).2.2
      ↔ timer.active = false) ∧
    (check_lwip_timeouts L timer s).2.2.count TimerCall.sys_restart_timeouts ≤ 1 ∧
    (check_lwip_timeouts L timer s).2.2.count TimerCall.sys_check_timeouts = 1 ∧
    (timer.active = false →
      (check_lwip_timeouts L timer s).2.2.head? = some TimerCall.sys_restart_timeouts) ∧
    (if L.tcp_active_pcbs (check_lwip_timeouts L timer s).1 = [] ∧
        L.tcp_tw_pcbs (check_lwip_timeouts L timer s).1 = [] then
      (check_lwip_timeouts L timer s).2.2.getLast? = some TimerCall.uv_timer_stop ∧
      (∀ t r, TimerCall.uv_timer_start t r ∉ (check_lwip_timeouts L timer s).2.2) ∧
      (check_lwip_timeouts L timer s).2.1 = { timer with active := false }
    else
      (check_lwip_timeouts L timer s).2.2.getLast? =
        some (TimerCall.uv_timer_start
          (L.sys_timeouts_sleeptime (check_lwip_timeouts L timer s).1)
          (L.sys_timeouts_sleeptime (check_lwip_timeouts L timer s).1)) ∧
      TimerCall.uv_timer_stop ∉ (check_lwip_timeouts L timer s).2.2 ∧
      (check_lwip_timeouts L timer s).2.1 =
        { active := true,
          timeout := L.sys_timeouts_sleeptime (check_lwip_timeouts L timer s).1,
          repeat_ := L.sys_timeouts_sleeptime (check_lwip_timeouts L timer s).1 }) := by
  have key := check_lwip_timeouts_cases L timer s
  cases ha : timer.active
  · by_cases he : L.tcp_active_pcbs (L.sys_check_timeouts (L.sys_restart_timeouts s)) = [] ∧
        L.tcp_tw_pcbs (L.sys_check_timeouts (L.sys_restart_timeouts s)) = []
    · rw [(key.1 ha).1 he]
      simp [he]
    · rw [(key.1 ha).2 he]
      simp [he]
  · by_cases he : L.tcp_active_pcbs (L.sys_check_timeouts s) = [] ∧
        L.tcp_tw_pcbs (L.sys_check_timeouts s) = []
    · rw [(key.2 ha).1 he]
      simp [he]
    · rw [(key.2 ha).2 he]
      simp [he]

/-- Witness for C18: an inactive timer with only a time-wait connection, which the
due timeouts remove, and an active timer with an active connection. -/
theorem check_lwip_timeouts_discipline_witness :
    (check_lwip_timeouts lwip_sample { active := false, timeout := 0, repeat_ := 0 } ([], [3])).2.2
      = [TimerCall.sys_restart_timeouts, TimerCall.sys_check_timeouts, TimerCall.uv_timer_stop] ∧
    (check_lwip_timeouts lwip_sample { active := true, timeout := 10, repeat_ := 10 } ([4], [3])).2.2
      = [TimerCall.sys_check_timeouts, TimerCall.uv_timer_start 250 250] ∧
    (check_lwip_timeouts lwip_sample { active := true, timeout := 10, repeat_ := 10 } ([4], [3])).2.2.count
      TimerCall.sys_check_timeouts = 1 :=
  ⟨by decide, by decide,
    (check_lwip_timeouts_discipline lwip_sample { active := true, timeout := 10, repeat_ := 10 }
      ([4], [3])).2.2.2.1⟩

/-! ## Display form of a port range -/

/-- A rendering shorter than the buffer is stored whole by `snprintf`. -/
theorem snprintf_fits (size : Nat) (s : String) (h : s.length < size) : snprintf size s = s := by
  have hlen : s.data.length ≤ size - 1 := by
    have : s.data.length = s.length := rfl
    omega
  simp [snprintf, List.take_of_length_le hlen]

/-- The decimal rendering of a 16-bit value has at most five characters. -/
theorem toString_length_u16 (n : Nat) (h : n < 65536) : (toString n).length ≤ 5 :=
  Nat.repr_length n 5 (by decide) (lt_of_lt_of_le h (by decide))

/-- C19: for 16-bit `low` and `high`, and a `str` buffer of at least 14 bytes (the
longest rendering has 13 characters), the display form that `parse_port_range`
stores is the decimal rendering of the port when `low = high`, and otherwise
`[`, `low` in decimal, `-`, `high` in decimal, `]`, with the two inputs in the
order given. -/
theorem parse_port_range_str (str_size low high : Nat) (hlow : low < 65536)
    (hhigh : high < 65536) (hsize : 14 ≤ str_size) :
    (parse_port_range str_size low high).str =
      if low = high then toString low
      else "[" ++ toString low ++ "-" ++ toString high ++ "]" := by
  have h1 := toString_length_u16 low hlow
  have h2 := toString_length_u16 high hhigh
  by_cases h : low = high
  · simp only [parse_port_range, h, if_true]
    exact snprintf_fits _ _ (by omega)
  · simp only [parse_port_range, h, if_false]
    apply snprintf_fits
    simp only [String.length_append]
    have e1 : "[".length = 1 := rfl
    have e2 : "-".length = 1 := rfl
    have e3 : "]".length = 1 := rfl
    omega

/-- Witness for C19: port 80 alone, and the pair 80, 443, in a 16-byte buffer. -/
theorem parse_port_range_str_witness :
    (parse_port_range 16 80 80).str = "80" ∧
    (parse_port_range 16 80 443).str = "[80-443]" :=
  ⟨(parse_port_range_str 16 80 80 (by decide) (by decide) (by decide)).trans (by decide),
    (parse_port_range_str 16 80 443 (by decide) (by decide) (by decide)).trans (by decide)⟩

/-- C20 at the failing input: `parse_port_range` of 443, 80 and of 80, 443 yield the
same normalized `low` and `high`, but the display strings `[443-80]` and
`[80-443]`, which differ. -/
theorem parse_port_range_str_not_canonical :
    (parse_port_range 16 443 80).low = (parse_port_range 16 80 443).low ∧
    (parse_port_range 16 443 80).high = (parse_port_range 16 80 443).high ∧
    (parse_port_range 16 443 80).str = "[443-80]" ∧
    (parse_port_range 16 80 443).str = "[80-443]" ∧
    (parse_port_range 16 443 80).str ≠ (parse_port_range 16 80 443).str := by
  decide

/-! ## Path separators -/

theorem skip_target_length_le (target : Char) (l : List Char) :
    (skip_target target l).length ≤ l.length := by
  induction l with
  | nil => simp [skip_target]
  | cons c rest ih =>
    by_cases h : c = target
    · simp [skip_target, h]; omega
    · simp [skip_target, h]

/-! ## Finding a rule -/

/-- C21: `ziti_tunnel_find_intercept` returns a rule if and only if the engine is
non-null and some registered rule carries `h`; the rule returned is the first in
registry order whose backend handle is `h` (rules before it carry other handles);
the function only reads the engine. -/
theorem ziti_tunnel_find_intercept_first (tnlr_ctx : Option tunneler_ctx_s) (h : Nat) :
    ((ziti_tunnel_find_intercept tnlr_ctx h).isSome ↔
      ∃ ctx, tnlr_ctx = some ctx ∧ ∃ i ∈ ctx.intercepts, i.app_intercept_ctx = h) ∧
    (∀ r, ziti_tunnel_find_intercept tnlr_ctx h = some r →
      ∃ ctx pre post, tnlr_ctx = some ctx ∧ ctx.intercepts = pre ++ r :: post ∧
        (∀ x ∈ pre, x.app_intercept_ctx ≠ h) ∧ r.app_intercept_ctx = h) ∧
    ziti_tunnel_find_intercept tnlr_ctx h =
      tnlr_ctx.bind (fun ctx => ctx.intercepts.find? (fun i => decide (i.app_intercept_ctx = h))) := by
  cases tnlr_ctx with
  | none => simp [ziti_tunnel_find_intercept]
  | some ctx =>
    cases hf : find_intercept_node ctx.intercepts h with
    | none =>
      have hno := (find_intercept_node_none ctx.intercepts h).mp hf
      refine ⟨?_, ?_, ?_⟩
      · simp only [ziti_tunnel_find_intercept, hf]
        constructor
        · intro hs; simp at hs
        · rintro ⟨c, hc, i, hi, hih⟩
          cases hc
          exact absurd hih (hno i hi)
      · intro r hr
        simp [ziti_tunnel_find_intercept, hf] at hr
      · simp only [ziti_tunnel_find_intercept, hf, Option.bind]
        symm
        rw [List.find?_eq_none]
        intro i hi
        simpa using hno i hi
    | some k =>
      obtain ⟨pre, r, post, hl, hlen, hpre, hr⟩ := find_intercept_node_some ctx.intercepts h k hf
      have hget : ctx.intercepts.get? k = some r := by
        rw [hl, ← hlen]; exact get?_split pre post r
      have hres : ziti_tunnel_find_intercept (some ctx) h = some r := by
        simp only [ziti_tunnel_find_intercept, hf, hget]
      refine ⟨?_, ?_, ?_⟩
      · rw [hres]
        simp only [Option.isSome_some, true_iff]
        exact ⟨ctx, rfl, r, by rw [hl]; simp, hr⟩
      · intro r2 hr2
        rw [hres] at hr2
        cases hr2
        exact ⟨ctx, pre, post, rfl, hl, hpre, hr⟩
      · rw [hres]
        simp only [Option.bind]
        symm
        rw [hl, List.find?_append]
        have hnone : List.find? (fun i => decide (i.app_intercept_ctx = h)) pre = none := by
          rw [List.find?_eq_none]
          intro i hi
          simpa using hpre i hi
        simp [hnone, hr]

/-! ## Null inputs to the registry -/

/-- With a null rule or a null address, `intercept_ctx_add_address` and
`intercept_ctx_add_allowed_source_address` return at once: a non-null rule is
left as it was, and there is no rule to change when the rule is null. -/
theorem intercept_ctx_add_address_null (ziti_address_print : Nat → String)
    (i : intercept_ctx_s) (za : Option Nat) :
    intercept_ctx_add_address ziti_address_print (some i) none = some i ∧
    intercept_ctx_add_address ziti_address_print none za = none ∧
    intercept_ctx_add_allowed_source_address ziti_address_print (some i) none = some i ∧
    intercept_ctx_add_allowed_source_address ziti_address_print none za = none := by
  cases za <;> exact ⟨rfl, rfl, rfl, rfl⟩

/-- C22 at the failing input: on the initialized engine holding the rules C and A,
`ziti_tunneler_intercept` with a null rule has no defined result: after the
engine test it reads `i_ctx->addresses` through the null pointer, so it neither
returns a failure code nor leaves the call as a no-op. -/
theorem ziti_tunneler_intercept_null_rule_faults :
    ziti_tunneler_intercept (some engine_two) none world_start = none ∧
    ¬ ∃ ret, ziti_tunneler_intercept (some engine_two) none world_start
      = some (ret, some engine_two, world_start) := by
  constructor
  · rfl
  · rintro ⟨ret, h⟩
    have h0 : ziti_tunneler_intercept (some engine_two) none world_start = none := rfl
    rw [h0] at h
    cases h

/-! ## Idle timeout -/

/-- C23: for an I/O context whose connection record is present and every timeout
`t`, `ziti_tunneler_set_idle_timeout` returns the context in which the connection
record has `idle_timeout = t`, and every other field of the record and of the I/O
context is as before. -/
theorem ziti_tunneler_set_idle_timeout_frame (io_context : io_ctx_s)
    (tnlr_io : tunneler_io_ctx_s) (t : Nat) (hc : io_context.tnlr_io = some tnlr_io) :
    ∃ io1 c1,
      ziti_tunneler_set_idle_timeout io_context t = some io1 ∧
      io1.tnlr_io = some c1 ∧
      c1.idle_timeout = t ∧
      c1.service_name = tnlr_io.service_name ∧ c1.client = tnlr_io.client ∧
      c1.intercepted = tnlr_io.intercepted ∧ c1.proto = tnlr_io.proto ∧
      c1.tcp = tnlr_io.tcp ∧ c1.udp = tnlr_io.udp ∧ c1.conn_timer = tnlr_io.conn_timer ∧
      io1.ziti_io = io_context.ziti_io ∧ io1.write_fn = io_context.write_fn ∧
      io1.close_write_fn = io_context.close_write_fn ∧ io1.close_fn = io_context.close_fn := by
  refine ⟨{ io_context with tnlr_io := some { tnlr_io with idle_timeout := t } },
    { tnlr_io with idle_timeout := t }, ?_, rfl, rfl, rfl, rfl, rfl, rfl, rfl, rfl, rfl, rfl,
    rfl, rfl, rfl⟩
  simp [ziti_tunneler_set_idle_timeout, hc]

/-- Witness for C23: the UDP context, whose idle timeout goes from 30 to 120. -/
theorem ziti_tunneler_set_idle_timeout_frame_witness :
    ziti_tunneler_set_idle_timeout (io_around io_udp) 120
      = some (io_around { io_udp with idle_timeout := 120 }) ∧
    ∃ io1 c1,
      ziti_tunneler_set_idle_timeout (io_around io_udp) 120 = some io1 ∧
      io1.tnlr_io = some c1 ∧
      c1.idle_timeout = 120 ∧
      c1.service_name = io_udp.service_name ∧ c1.client = io_udp.client ∧
      c1.intercepted = io_udp.intercepted ∧ c1.proto = io_udp.proto ∧
      c1.tcp = io_udp.tcp ∧ c1.udp = io_udp.udp ∧ c1.conn_timer = io_udp.conn_timer ∧
      io1.ziti_io = (io_around io_udp).ziti_io ∧ io1.write_fn = (io_around io_udp).write_fn ∧
      io1.close_write_fn = (io_around io_udp).close_write_fn ∧
      io1.close_fn = (io_around io_udp).close_fn :=
  ⟨by decide, ziti_tunneler_set_idle_timeout_frame (io_around io_udp) io_udp 120 rfl⟩

/-! ## Unknown protocol tag -/

/-- C24 as stated fails: for the I/O context with protocol tag 2 and a connection
timer, `ziti_tunneler_close` is not a no-op: it closes the timer, releases the
service name and frees the context. -/
theorem ziti_tunneler_close_unknown_frees :
    (ziti_tunneler_close (some io_unknown_timer)).2 =
      [CloseCall.uv_close 9, CloseCall.free_service_name "A",
        CloseCall.free_io { io_unknown_timer with conn_timer := none }] ∧
    (ziti_tunneler_close (some io_unknown_timer)).2 ≠ [] := by
  decide

/-- C24, amended: for every I/O context whose protocol tag is neither tcp nor udp,
`ziti_tunneler_close` and `ziti_tunneler_dial_completed` invoke no protocol
handler; `ziti_tunneler_dial_completed` makes no call at all; and
`ziti_tunneler_close` returns 0 after `uv_close` of the connection timer when
there is one, the release of the service name when there is one, and `free` of
the context, whose control blocks are as they were. -/
theorem ziti_tunneler_unknown_proto (io : tunneler_io_ctx_s) (outer : io_ctx_s) (ok : Bool)
    (tag : Nat) (hp : io.proto = tunnel_proto_type.other tag)
    (ho : outer.tnlr_io = some io) :
    ziti_tunneler_dial_completed (some outer) ok = some [] ∧
    ziti_tunneler_close (some io) =
      (0, io.conn_timer.toList.map CloseCall.uv_close
            ++ io.service_name.toList.map CloseCall.free_service_name
            ++ [CloseCall.free_io { io with conn_timer := none }]) ∧
    (∀ pcb, CloseCall.tunneler_tcp_close pcb ∉ (ziti_tunneler_close (some io)).2 ∧
      CloseCall.tunneler_udp_close pcb ∉ (ziti_tunneler_close (some io)).2) := by
  have hclose : ziti_tunneler_close (some io) =
      (0, io.conn_timer.toList.map CloseCall.uv_close
            ++ io.service_name.toList.map CloseCall.free_service_name
            ++ [CloseCall.free_io { io with conn_timer := none }]) := by
    obtain ⟨sn, cl, ic, pr, tcp, udp, idle, ct⟩ := io
    simp only at hp
    subst hp
    cases ct <;> cases sn <;> simp [ziti_tunneler_close, free_tunneler_io_context]
  refine ⟨?_, hclose, ?_⟩
  · simp [ziti_tunneler_dial_completed, ho, hp]
  · intro pcb
    rw [hclose]
    cases ht : io.conn_timer <;> cases hn : io.service_name <;> simp

/-- Witness for C24, amended: the context with tag 2 and a timer. -/
theorem ziti_tunneler_unknown_proto_witness :
    ziti_tunneler_dial_completed (some (io_around io_unknown_timer)) true = some [] ∧
    ziti_tunneler_close (some io_unknown_timer) =
      (0, [CloseCall.uv_close 9, CloseCall.free_service_name "A",
        CloseCall.free_io { io_unknown_timer with conn_timer := none }]) :=
  have key := ziti_tunneler_unknown_proto io_unknown_timer (io_around io_unknown_timer) true 2
    rfl rfl
  ⟨key.1, key.2.1⟩

theorem remove_duplicates_loop_nil (target : Char) : remove_duplicates_loop target [] = [] := by
  rw [remove_duplicates_loop]

theorem remove_duplicates_loop_cons (target c : Char) (rest : List Char) :
    remove_duplicates_loop target (c :: rest) =
      if c = target then c :: remove_duplicates_loop target (skip_target target rest)
      else c :: remove_duplicates_loop target rest := by
  rw [remove_duplicates_loop]

theorem remove_duplicates_loop_eq_collapse (target : Char) :
    ∀ l : List Char, remove_duplicates_loop target l = collapse_runs target l
  | [] => by rw [remove_duplicates_loop_nil]; rfl
  | [c] => by
    rw [remove_duplicates_loop_cons]
    by_cases h : c = target <;> simp [h, skip_target, remove_duplicates_loop_nil, collapse_runs]
  | c :: d :: rest => by
    have ih := remove_duplicates_loop_eq_collapse target (d :: rest)
    by_cases hc : c = target
    · by_cases hd : d = target
      · subst hc
        subst hd
        rw [remove_duplicates_loop_cons] at ih ⊢
        simp only [if_true, skip_target] at ih ⊢
        rw [ih]
        simp [collapse_runs]
      · rw [remove_duplicates_loop_cons]
        simp only [hc, if_true, skip_target, hd, if_false]
        rw [ih]
        simp [collapse_runs, hd]
    · rw [remove_duplicates_loop_cons]
      simp only [hc, if_false]
      rw [ih]
      simp [collapse_runs, hc]

theorem collapse_runs_head (target d : Char) :
    ∀ rest : List Char, ∃ tl, collapse_runs target (d :: rest) = d :: tl
  | [] => ⟨[], rfl⟩
  | e :: r => by
    by_cases h : d = target ∧ e = target
    · obtain ⟨tl, htl⟩ := collapse_runs_head target e r
      refine ⟨tl, ?_⟩
      obtain ⟨hd, he⟩ := h
      subst hd
      subst he
      simp only [collapse_runs, and_self, if_true]
      exact htl
    · exact ⟨collapse_runs target (e :: r), by simp only [collapse_runs, h, if_false]⟩

theorem collapse_runs_no_adjacent (target : Char) :
    ∀ l : List Char, no_adjacent target (collapse_runs target l)
  | [] => List.chain'_nil
  | [c] => List.chain'_singleton c
  | c :: d :: rest => by
    have ih := collapse_runs_no_adjacent target (d :: rest)
    by_cases h : c = target ∧ d = target
    · simpa only [collapse_runs, h, and_self, if_true] using ih
    · simp only [collapse_runs, h, if_false]
      obtain ⟨tl, htl⟩ := collapse_runs_head target d rest
      unfold no_adjacent at ih ⊢
      rw [htl] at ih ⊢
      exact List.Chain'.cons h ih

theorem collapse_runs_of_no_adjacent (target : Char) :
    ∀ l : List Char, no_adjacent target l → collapse_runs target l = l
  | [], _ => rfl
  | [c], _ => rfl
  | c :: d :: rest, h => by
    unfold no_adjacent at h
    rw [List.chain'_cons] at h
    have ih := collapse_runs_of_no_adjacent target (d :: rest) h.2
    simp only [collapse_runs, h.1, if_false, ih]

theorem collapse_runs_sublist (target : Char) :
    ∀ l : List Char, (collapse_runs target l).Sublist l
  | [] => List.Sublist.refl _
  | [c] => List.Sublist.refl _
  | c :: d :: rest => by
    have ih := collapse_runs_sublist target (d :: rest)
    by_cases h : c = target ∧ d = target
    · simp only [collapse_runs, h, and_self, if_true]
      have h2 := List.Sublist.cons c ih
      rwa [h.1, h.2] at h2
    · simp only [collapse_runs, h, if_false]
      exact List.Sublist.cons₂ c ih

theorem collapse_runs_filter (target : Char) :
    ∀ l : List Char, (collapse_runs target l).filter (fun c => decide (c ≠ target))
      = l.filter (fun c => decide (c ≠ target))
  | [] => rfl
  | [c] => rfl
  | c :: d :: rest => by
    have ih := collapse_runs_filter target (d :: rest)
    by_cases h : c = target ∧ d = target
    · simp only [collapse_runs, h, and_self, if_true] at ih ⊢
      rw [ih]
      simp
    · simp only [collapse_runs, h, if_false]
      rw [List.filter_cons, ih]
      conv_rhs => rw [List.filter_cons]

/-- C25: for every string `s` and character `target`,
`remove_duplicate_path_separators` rewrites `s` to the string in which each
maximal run of consecutive `target` characters is replaced by a single `target`
and every other character is kept, in order. Hence the result has no two adjacent
`target` characters, is a subsequence of `s` and no longer than `s`, has the same
characters other than `target` in the same order, and is left unchanged by a
second application. A null pointer is left alone. -/
theorem remove_duplicate_path_separators_collapses (s : List Char) (target : Char) :
    remove_duplicate_path_separators (some s) target = some (collapse_runs target s) ∧
    no_adjacent target (collapse_runs target s) ∧
    (collapse_runs target s).Sublist s ∧
    (collapse_runs target s).length ≤ s.length ∧
    (collapse_runs target s).filter (fun c => decide (c ≠ target))
      = s.filter (fun c => decide (c ≠ target)) ∧
    remove_duplicate_path_separators (remove_duplicate_path_separators (some s) target) target
      = remove_duplicate_path_separators (some s) target ∧
    remove_duplicate_path_separators none target = none := by
  have hrun : ∀ l : List Char,
      remove_duplicate_path_separators (some l) target = some (collapse_runs target l) := by
    intro l
    cases l with
    | nil => rfl
    | cons c rest =>
      simp only [remove_duplicate_path_separators]
      rw [remove_duplicates_loop_eq_collapse]
  refine ⟨hrun s, collapse_runs_no_adjacent target s, collapse_runs_sublist target s,
    (collapse_runs_sublist target s).length_le, collapse_runs_filter target s, ?_, rfl⟩
  rw [hrun s, hrun (collapse_runs target s),
    collapse_runs_of_no_adjacent target _ (collapse_runs_no_adjacent target s)]

/-- Witness for C25: `a//b///c/` with target `/` becomes `a/b/c/`. -/
theorem remove_duplicate_path_separators_collapses_witness :
    remove_duplicate_path_separators (some ['a', '/', '/', 'b', '/', '/', '/', 'c', '/']) '/'
      = some ['a', '/', 'b', '/', 'c', '/'] :=
  (remove_duplicate_path_separators_collapses
    ['a', '/', '/', 'b', '/', '/', '/', 'c', '/'] '/').1.trans (by decide)

/-! ## MFA timeouts -/

theorem to_int_of_fits (x : Int) (h : fits_int x) : to_int x = x := by
  unfold fits_int at h
  unfold to_int
  omega

theorem model_map_set_keys {α : Type} (m : List (String × α)) (key : String) (val : α) :
    (model_map_set m key val).map (fun e => e.1) =
      if key ∈ m.map (fun e => e.1) then m.map (fun e => e.1)
      else m.map (fun e => e.1) ++ [key] := by
  induction m with
  | nil => simp [model_map_set]
  | cons e rest ih =>
    obtain ⟨k, v⟩ := e
    by_cases hk : k = key
    · simp [model_map_set, hk]
    · have hk2 : ¬ key = k := fun h => hk h.symm
      by_cases hin : key ∈ rest.map (fun e => e.1)
      · simp only [model_map_set, hk, if_false, List.map_cons, ih, hin, if_true,
          List.mem_cons, or_true]
      · simp only [model_map_set, hk, if_false, List.map_cons, ih, hin, List.mem_cons, hk2,
          or_self, List.cons_append]

theorem model_map_set_nodup {α : Type} (m : List (String × α)) (key : String) (val : α)
    (h : (m.map (fun e => e.1)).Nodup) :
    ((model_map_set m key val).map (fun e => e.1)).Nodup := by
  rw [model_map_set_keys]
  by_cases hin : key ∈ m.map (fun e => e.1)
  · simpa only [hin, if_true] using h
  · simp only [hin, if_false]
    rw [List.nodup_append]
    refine ⟨h, List.nodup_singleton key, ?_⟩
    intro a ha hb
    simp only [List.mem_singleton] at hb
    subst hb
    exact hin ha

theorem model_map_set_mem {α : Type} (m : List (String × α)) (key : String) (val : α)
    (h : (m.map (fun e => e.1)).Nodup) (e : String × α) :
    e ∈ model_map_set m key val ↔ e = (key, val) ∨ (e ∈ m ∧ e.1 ≠ key) := by
  induction m with
  | nil => simp [model_map_set]
  | cons x rest ih =>
    obtain ⟨k, v⟩ := x
    simp only [List.map_cons, List.nodup_cons] at h
    by_cases hk : k = key
    · subst hk
      simp only [model_map_set, if_true, List.mem_cons]
      constructor
      · rintro (he | he)
        · exact Or.inl he
        · refine Or.inr ⟨Or.inr he, ?_⟩
          intro hek
          exact h.1 (hek ▸ List.mem_map_of_mem (fun e => e.1) he)
      · rintro (he | ⟨he | he, hne⟩)
        · exact Or.inl he
        · exact absurd (by rw [he]) hne
        · exact Or.inr he
    · simp only [model_map_set, hk, if_false, List.mem_cons, ih h.2]
      constructor
      · rintro (he | he | ⟨he, hne⟩)
        · refine Or.inr ⟨Or.inl he, ?_⟩
          rw [he]; exact hk
        · exact Or.inl he
        · exact Or.inr ⟨Or.inr he, hne⟩
      · rintro (he | ⟨he | he, hne⟩)
        · exact Or.inr (Or.inl he)
        · exact Or.inl he
        · exact Or.inr (Or.inr ⟨he, hne⟩)

theorem model_map_get_some {α : Type} (m : List (String × α)) (key : String) (val : α)
    (h : model_map_get m key = some val) : (key, val) ∈ m := by
  induction m with
  | nil => simp [model_map_get] at h
  | cons x rest ih =>
    obtain ⟨k, v⟩ := x
    by_cases hk : k = key
    · simp only [model_map_get, hk, if_true, Option.some.injEq] at h
      simp [hk, h]
    · simp only [model_map_get, hk, if_false] at h
      exact List.mem_cons_of_mem _ (ih h)

theorem model_map_get_none {α : Type} (m : List (String × α)) (key : String)
    (h : model_map_get m key = none) : ∀ e ∈ m, e.1 ≠ key := by
  induction m with
  | nil => simp
  | cons x rest ih =>
    obtain ⟨k, v⟩ := x
    by_cases hk : k = key
    · simp [model_map_get, hk] at h
    · simp only [model_map_get, hk, if_false] at h
      intro e he
      rcases List.mem_cons.mp he with he | he
      · rw [he]; exact hk
      · exact ih h e he

theorem model_map_remove_mem {α : Type} (m : List (String × α)) (key : String)
    (e : String × α) : e ∈ model_map_remove m key ↔ e ∈ m ∧ e.1 ≠ key := by
  simp [model_map_remove]

theorem map_ok_set (m : List (String × tunnel_service_s)) (svc : tunnel_service_s)
    (h : map_ok m) : map_ok (model_map_set m svc.Name svc) := by
  refine ⟨model_map_set_nodup m svc.Name svc h.1, ?_⟩
  intro e he
  rcases (model_map_set_mem m svc.Name svc h.1 e).mp he with he | ⟨he, _⟩
  · rw [he]
  · exact h.2 e he

theorem map_ok_remove (m : List (String × tunnel_service_s)) (key : String)
    (h : map_ok m) : map_ok (model_map_remove m key) := by
  refine ⟨?_, ?_⟩
  · unfold model_map_remove
    exact (h.1.sublist ((List.filter_sublist m).map (fun e => e.1)))
  · intro e he
    exact h.2 e ((model_map_remove_mem m key e).mp he).1

theorem set_services_foldl (l : List tunnel_service_s) :
    ∀ m : List (String × tunnel_service_s), map_ok m →
      map_ok (l.foldl (fun m svc => model_map_set m svc.Name svc) m) ∧
      (∀ e, e ∈ l.foldl (fun m svc => model_map_set m svc.Name svc) m →
        (e ∈ m ∧ e.1 ∉ l.map (fun svc => svc.Name)) ∨ e.2 ∈ l) ∧
      (∀ n, n ∈ (l.foldl (fun m svc => model_map_set m svc.Name svc) m).map (fun e => e.1) ↔
        n ∈ m.map (fun e => e.1) ∨ n ∈ l.map (fun svc => svc.Name)) := by
  induction l with
  | nil =>
    intro m hm
    exact ⟨hm, fun e he => Or.inl ⟨he, by simp⟩, fun n => by simp⟩
  | cons svc rest ih =>
    intro m hm
    have hm1 := map_ok_set m svc hm
    obtain ⟨h1, h2, h3⟩ := ih (model_map_set m svc.Name svc) hm1
    simp only [List.foldl_cons]
    refine ⟨h1, ?_, ?_⟩
    · intro e he
      rcases h2 e he with ⟨hem, hnot⟩ | hin
      · rcases (model_map_set_mem m svc.Name svc hm.1 e).mp hem with heq | ⟨hem2, hne⟩
        · exact Or.inr (by rw [heq]; simp)
        · refine Or.inl ⟨hem2, ?_⟩
          simp only [List.map_cons, List.mem_cons, not_or]
          exact ⟨hne, hnot⟩
      · exact Or.inr (List.mem_cons_of_mem _ hin)
    · intro n
      rw [h3, model_map_set_keys]
      by_cases hin : svc.Name ∈ m.map (fun e => e.1)
      · simp only [hin, if_true, List.map_cons, List.mem_cons]
        constructor
        · rintro (h | h)
          · exact Or.inl h
          · exact Or.inr (Or.inr h)
        · rintro (h | h | h)
          · exact Or.inl h
          · exact Or.inl (h ▸ hin)
          · exact Or.inr h
      · simp only [hin, if_false, List.map_cons, List.mem_cons, List.mem_append,
          List.mem_singleton]
        tauto

theorem remove_services_foldl (l : List tunnel_service_s) :
    ∀ m : List (String × tunnel_service_s), map_ok m →
      map_ok (l.foldl (fun m svc =>
        match model_map_get m svc.Name with
        | some rem_svc => model_map_remove m rem_svc.Name
        | none => m) m) ∧
      (∀ e, e ∈ l.foldl (fun m svc =>
          match model_map_get m svc.Name with
          | some rem_svc => model_map_remove m rem_svc.Name
          | none => m) m ↔
        e ∈ m ∧ e.1 ∉ l.map (fun svc => svc.Name)) := by
  induction l with
  | nil =>
    intro m hm
    exact ⟨hm, fun e => by simp⟩
  | cons svc rest ih =>
    intro m hm
    simp only [List.foldl_cons]
    cases hg : model_map_get m svc.Name with
    | none =>
      obtain ⟨h1, h2⟩ := ih m hm
      refine ⟨h1, ?_⟩
      intro e
      rw [h2]
      have hno := model_map_get_none m svc.Name hg
      simp only [List.map_cons, List.mem_cons, not_or]
      constructor
      · rintro ⟨he, hn⟩
        exact ⟨he, hno e he, hn⟩
      · rintro ⟨he, _, hn⟩
        exact ⟨he, hn⟩
    | some rem_svc =>
      have hmem := model_map_get_some m svc.Name rem_svc hg
      have hname : rem_svc.Name = svc.Name := hm.2 (svc.Name, rem_svc) hmem
      obtain ⟨h1, h2⟩ := ih (model_map_remove m rem_svc.Name) (map_ok_remove m rem_svc.Name hm)
      refine ⟨h1, ?_⟩
      intro e
      rw [h2, model_map_remove_mem, hname]
      simp only [List.map_cons, List.mem_cons, not_or]
      tauto

theorem drain_into_append {α : Type} (it : List (String × α)) :
    ∀ (pre : List (Option α)) (k : Nat),
      drain_into it pre.length (pre ++ List.replicate (it.length + k) none) =
        pre ++ it.map (fun e => some e.2) ++ List.replicate k none := by
  induction it with
  | nil => intro pre k; simp [drain_into]
  | cons e rest ih =>
    intro pre k
    obtain ⟨key, v⟩ := e
    simp only [drain_into, List.length_cons, List.map_cons]
    have hset : (pre ++ List.replicate (rest.length + 1 + k) none).set pre.length (some v) =
        (pre ++ [some v]) ++ List.replicate (rest.length + k) none := by
      have hrep : List.replicate (rest.length + 1 + k) (none : Option α)
          = none :: List.replicate (rest.length + k) none := by
        rw [show rest.length + 1 + k = (rest.length + k) + 1 by omega, List.replicate_succ]
      rw [hrep, List.set_append_right _ _ (le_refl _)]
      simp
    rw [hset]
    have := ih (pre ++ [some v]) k
    simp only [List.length_append, List.length_singleton] at this
    rw [this]
    simp

theorem drain_into_calloc {α : Type} (m : List (String × α)) :
    drain_into m 0 (List.replicate (model_map_size m + 1) none) =
      m.map (fun e => some e.2) ++ [none] := by
  have := drain_into_append m [] 1
  simpa [model_map_size] using this

theorem set_mfa_timeout_services (tnl_id : tunnel_identity_s) :
    (set_mfa_timeout tnl_id).Services = tnl_id.Services := by
  cases h : tnl_id.Services <;> simp [set_mfa_timeout, h]

theorem array_entries_map_some {α : Type} (l : List α) (rest : List (Option α)) :
    array_entries (l.map some ++ none :: rest) = l := by
  induction l with
  | nil => rfl
  | cons a l ih => simp [array_entries, ih]

theorem add_or_remove_services_array (now : timestamp_s) (id : tunnel_identity_s)
    (added_services removed_services : Option (List (Option tunnel_service_s))) :
    (add_or_remove_services_from_tunnel now id added_services removed_services).Services =
      some ((updates_map (entries_of id.Services) (entries_of removed_services)
        (entries_of added_services)).map (fun e => some e.2) ++ [none]) := by
  simp only [add_or_remove_services_from_tunnel, set_mfa_timeout_services, drain_into_calloc]
  cases id.Services <;> cases removed_services <;> cases added_services <;>
    simp [updates_map, entries_of]

/-- C27: after `add_or_remove_services_from_tunnel` the identity's list is an array
of the kept services followed by a null entry, where: the set of names of the
kept services is (previous names minus removed names) union added names; no name
occurs twice; a kept service whose name is in the added array is an entry of the
added array; and every kept service comes from the previous list or from the
added array. -/
theorem add_or_remove_services_names (now : timestamp_s) (id : tunnel_identity_s)
    (added_services removed_services : Option (List (Option tunnel_service_s))) :
    ∃ kept : List tunnel_service_s,
      (add_or_remove_services_from_tunnel now id added_services removed_services).Services
        = some (kept.map some ++ [none]) ∧
      array_entries (kept.map some ++ [none]) = kept ∧
      (∀ n, n ∈ kept.map (fun svc => svc.Name) ↔
        (n ∈ (entries_of id.Services).map (fun svc => svc.Name) ∧
          n ∉ (entries_of removed_services).map (fun svc => svc.Name)) ∨
        n ∈ (entries_of added_services).map (fun svc => svc.Name)) ∧
      (kept.map (fun svc => svc.Name)).Nodup ∧
      (∀ svc ∈ kept, svc.Name ∈ (entries_of added_services).map (fun svc => svc.Name) →
        svc ∈ entries_of added_services) ∧
      (∀ svc ∈ kept, svc ∈ entries_of id.Services ∨ svc ∈ entries_of added_services) := by
  have hok0 : map_ok ([] : List (String × tunnel_service_s)) :=
    ⟨List.nodup_nil, fun e he => absurd he (List.not_mem_nil e)⟩
  obtain ⟨hok1, hval1, hkey1⟩ := set_services_foldl (entries_of id.Services) [] hok0
  obtain ⟨hok2, hmem2⟩ := remove_services_foldl (entries_of removed_services) _ hok1
  obtain ⟨hok3, hval3, hkey3⟩ := set_services_foldl (entries_of added_services) _ hok2
  have hnames : (updates_map (entries_of id.Services) (entries_of removed_services)
      (entries_of added_services)).map (fun e => e.2.Name) =
      (updates_map (entries_of id.Services) (entries_of removed_services)
        (entries_of added_services)).map (fun e => e.1) := by
    apply List.map_congr_left
    intro e he
    exact hok3.2 e he
  refine ⟨(updates_map (entries_of id.Services) (entries_of removed_services)
    (entries_of added_services)).map (fun e => e.2), ?_, ?_, ?_, ?_, ?_, ?_⟩
  · rw [add_or_remove_services_array, List.map_map]
    rfl
  · exact array_entries_map_some _ []
  · intro n
    rw [List.map_map]
    have e1 : ((fun svc : tunnel_service_s => svc.Name) ∘ fun e : String × tunnel_service_s => e.2)
        = fun e => e.2.Name := rfl
    rw [e1, hnames]
    unfold updates_map
    rw [hkey3]
    constructor
    · rintro (h | h)
      · obtain ⟨e, he, rfl⟩ := List.mem_map.mp h
        obtain ⟨he1, he2⟩ := (hmem2 e).mp he
        have hk : e.1 ∈ (List.foldl (fun m svc => model_map_set m svc.Name svc) []
            (entries_of id.Services)).map (fun e => e.1) := List.mem_map_of_mem _ he1
        rcases (hkey1 e.1).mp hk with hk | hk
        · simp at hk
        · exact Or.inl ⟨hk, he2⟩
      · exact Or.inr h
    · rintro (⟨h1, h2⟩ | h)
      · left
        have hk := (hkey1 n).mpr (Or.inr h1)
        obtain ⟨e, he, rfl⟩ := List.mem_map.mp hk
        exact List.mem_map_of_mem _ ((hmem2 e).mpr ⟨he, h2⟩)
      · exact Or.inr h
  · rw [List.map_map]
    have e1 : ((fun svc : tunnel_service_s => svc.Name) ∘ fun e : String × tunnel_service_s => e.2)
        = fun e => e.2.Name := rfl
    rw [e1, hnames]
    exact hok3.1
  · intro svc hsvc hname
    obtain ⟨e, he, rfl⟩ := List.mem_map.mp hsvc
    rcases hval3 e he with ⟨_, hnot⟩ | hin
    · rw [hok3.2 e he] at hname
      exact absurd hname hnot
    · exact hin
  · intro svc hsvc
    obtain ⟨e, he, rfl⟩ := List.mem_map.mp hsvc
    rcases hval3 e he with ⟨hem, _⟩ | hin
    · have hem1 := ((hmem2 e).mp hem).1
      rcases hval1 e hem1 with ⟨hnil, _⟩ | hin1
      · simp at hnil
      · exact Or.inl hin1
    · exact Or.inr hin

/-- Witness for C27: the identity holds a and b; a and c are removed; b (as added
later) and c are added: the list becomes b (the added one), c and a null entry. -/
theorem add_or_remove_services_names_witness :
    (add_or_remove_services_from_tunnel { tv_sec := 1000, tv_usec := 5 } id_sample
        (some [some svc_b2, some svc_c, none]) (some [some svc_a, some svc_c, none])).Services
      = some [some svc_b2, some svc_c, none] ∧
    ∃ kept : List tunnel_service_s,
      (add_or_remove_services_from_tunnel { tv_sec := 1000, tv_usec := 5 } id_sample
        (some [some svc_b2, some svc_c, none]) (some [some svc_a, some svc_c, none])).Services
        = some (kept.map some ++ [none]) ∧
      (kept.map (fun svc => svc.Name)).Nodup :=
  ⟨by decide,
    (add_or_remove_services_names { tv_sec := 1000, tv_usec := 5 } id_sample
      (some [some svc_b2, some svc_c, none]) (some [some svc_a, some svc_c, none])).imp
      (fun _ h => ⟨h.1, h.2.2.2.1⟩)⟩

/-! ## Remaining timeout -/

/-- C28 as stated fails: with timeout 10, the MFA update at second 100 (later than
the service update at second 50) and the clock 4294967296 seconds after it, the
elapsed time converted to `int` is 0, so `get_remaining_timeout` returns 10 and
not max(0, 10 - 4294967296) = 0. -/
theorem get_remaining_timeout_elapsed_wraps :
    get_remaining_timeout (100 + 4294967296) 10 5 id_sample = 10 ∧
    max 0 (10 - ((100 + 4294967296 : Int) - 100)) = 0 ∧
    get_remaining_timeout (100 + 4294967296) 10 5 id_sample
      ≠ max 0 (10 - ((100 + 4294967296 : Int) - 100)) := by
  decide

/-- C28, amended: `get_remaining_timeout` returns `timeout_rem` unchanged when
`timeout <= 0`, or `timeout_rem <= 0`, or either timestamp is missing. Otherwise,
provided the elapsed seconds and the difference taken from them are representable
as `int`, it returns max(0, timeout - (now - MFA update time)) when the MFA update
is strictly later than the service update, and
max(0, timeout_rem - (now - service update time)) otherwise; the result is then
not negative. -/
theorem get_remaining_timeout_in_range (now timeout timeout_rem : Int)
    (tnl_id : tunnel_identity_s) (mfa svc : timestamp_s)
    (hm : tnl_id.MfaLastUpdatedTime = some mfa) (hs : tnl_id.ServiceUpdatedTime = some svc)
    (ht : 0 < timeout) (hr : 0 < timeout_rem)
    (h1 : mfa.tv_sec > svc.tv_sec →
      fits_int (now - mfa.tv_sec) ∧ fits_int (timeout - (now - mfa.tv_sec)))
    (h2 : ¬ mfa.tv_sec > svc.tv_sec →
      fits_int (now - svc.tv_sec) ∧ fits_int (timeout_rem - (now - svc.tv_sec))) :
    get_remaining_timeout now timeout timeout_rem tnl_id =
      (if mfa.tv_sec > svc.tv_sec then max 0 (timeout - (now - mfa.tv_sec))
        else max 0 (timeout_rem - (now - svc.tv_sec))) ∧
    0 ≤ get_remaining_timeout now timeout timeout_rem tnl_id ∧
    (∀ (t r : Int) (id1 : tunnel_identity_s),
      t ≤ 0 ∨ r ≤ 0 ∨ id1.MfaLastUpdatedTime = none ∨ id1.ServiceUpdatedTime = none →
        get_remaining_timeout now t r id1 = r) := by
  have hcond : ¬ (timeout ≤ 0 ∨ timeout_rem ≤ 0) := by omega
  have hmain : get_remaining_timeout now timeout timeout_rem tnl_id =
      (if mfa.tv_sec > svc.tv_sec then max 0 (timeout - (now - mfa.tv_sec))
        else max 0 (timeout_rem - (now - svc.tv_sec))) := by
    simp only [get_remaining_timeout, hcond, if_false, hm, hs]
    by_cases hlt : mfa.tv_sec > svc.tv_sec
    · obtain ⟨f1, f2⟩ := h1 hlt
      simp only [hlt, if_true, to_int_of_fits _ f1, to_int_of_fits _ f2]
      by_cases hneg : timeout - (now - mfa.tv_sec) < 0
      · simp only [hneg, if_true]; omega
      · simp only [hneg, if_false]; omega
    · obtain ⟨f1, f2⟩ := h2 hlt
      simp only [hlt, if_false, to_int_of_fits _ f1, to_int_of_fits _ f2]
      by_cases hneg : timeout_rem - (now - svc.tv_sec) < 0
      · simp only [hneg, if_true]; omega
      · simp only [hneg, if_false]; omega
  refine ⟨hmain, ?_, ?_⟩
  · rw [hmain]
    split <;> omega
  · intro t r id1 h
    by_cases hc : t ≤ 0 ∨ r ≤ 0
    · simp only [get_remaining_timeout, hc, if_true]
    · have h3 : id1.MfaLastUpdatedTime = none ∨ id1.ServiceUpdatedTime = none := by
        rcases h with h | h | h | h
        · exact absurd (Or.inl h) hc
        · exact absurd (Or.inr h) hc
        · exact Or.inl h
        · exact Or.inr h
      simp only [get_remaining_timeout, hc, if_false]
      rcases h3 with h3 | h3
      · rw [h3]
      · rw [h3]
        cases id1.MfaLastUpdatedTime <;> rfl

/-- Witness for C28, amended: timeout 60 with 50 remaining, 30 seconds after the MFA
update at second 100 (service update at second 50): 30 seconds remain. -/
theorem get_remaining_timeout_in_range_witness :
    get_remaining_timeout 130 60 50 id_sample = 30 :=
  (get_remaining_timeout_in_range 130 60 50 id_sample { tv_sec := 100, tv_usec := 0 }
    { tv_sec := 50, tv_usec := 0 } rfl rfl (by decide) (by decide)
    (fun _ => by simp [fits_int]) (fun h => absurd (by decide) h)).1.trans (by decide)

/-! ## Subnet mask -/

/-- C29 as stated fails: on a 32-bit `unsigned long` and for `bits = 0` the
expression shifts `0xFFFFFFFFUL` by 32, the full width of its type, which has no
defined result; so it is not the value 2^32 - 2^32 = 0 of the claim. -/
theorem set_ip_info_netmask_full_width_shift :
    set_ip_info_netmask 32 0 = none ∧
    set_ip_info_netmask 32 0 ≠ some (2 ^ 32 - 2 ^ (32 - (0 : Int)).toNat) := by
  decide

/-- C29, amended: for a prefix length `bits` with 0 <= bits <= 32, on an `unsigned
long` of at least 32 bits that is wider than the shift count `32 - bits` (every
such `bits` when it has 64 bits, 1 <= bits <= 32 when it has 32), the subnet mask that
`set_ip_info` computes before the byte-order conversion is 2^32 - 2^(32 - bits):
the top `bits` bits one, the others zero. -/
theorem set_ip_info_netmask_value (ulong_bits : Nat) (bits : Int) (h0 : 0 ≤ bits)
    (h32 : bits ≤ 32) (hw : 32 ≤ ulong_bits) (hs : 32 - bits < ulong_bits) :
    set_ip_info_netmask ulong_bits bits = some (2 ^ 32 - 2 ^ (32 - bits).toNat) := by
  have hcond : ¬ (32 - bits < 0 ∨ (ulong_bits : Int) ≤ 32 - bits) := by omega
  simp only [set_ip_info_netmask, hcond, if_false, Option.some.injEq]
  have hk : (32 - bits).toNat ≤ 32 := by omega
  generalize (32 - bits).toNat = k at hk
  have hand : ∀ x : Nat, x &&& 0xFFFFFFFF = x % 2 ^ 32 := by
    intro x
    exact Nat.and_pow_two_sub_one_eq_mod x 32
  rw [hand, Nat.mod_mod_of_dvd _ (pow_dvd_pow 2 hw), Nat.shiftLeft_eq]
  interval_cases k <;> rfl

/-- Witness for C29, amended: a /24 prefix on a 64-bit `unsigned long` gives
`0xFFFFFF00`, the prefixes 0 and 32 give 0 and `0xFFFFFFFF`, and a /1 prefix on a
32-bit `unsigned long` gives `0x80000000`. -/
theorem set_ip_info_netmask_value_witness :
    set_ip_info_netmask 64 24 = some 0xFFFFFF00 ∧
    set_ip_info_netmask 64 0 = some 0 ∧
    set_ip_info_netmask 64 32 = some 0xFFFFFFFF ∧
    set_ip_info_netmask 32 1 = some 0x80000000 :=
  ⟨(set_ip_info_netmask_value 64 24 (by decide) (by decide) (by decide) (by decide)).trans
      (by decide),
    (set_ip_info_netmask_value 64 0 (by decide) (by decide) (by decide) (by decide)).trans
      (by decide),
    (set_ip_info_netmask_value 64 32 (by decide) (by decide) (by decide) (by decide)).trans
      (by decide),
    (set_ip_info_netmask_value 32 1 (by decide) (by decide) (by decide) (by decide)).trans
      (by decide)⟩

end ZitiTunnel
